import Mathlib

/-!
# Header listener of the bridge (sethu/listener/listener.go)

A shallow embedding of `BaseListener` and of the goroutines it launches.

* The listener struct, the contexts created by `context.WithCancel`, the log and the
  goroutines live in one `World`.
* `NewBaseListener` and `Start` are functions on that data.
* The three loops `StartHeaderProcess`, `StartPolling` and `StartSubscription` are step
  functions: one call performs the work a goroutine does between two scheduling points.
  The scheduler and the environment (ticker, chain client, subscription) are the `Event`
  that is fed to `step`.
* A Go `select` may take any ready case, so a ready receive and a closed `Done` channel are
  both enabled; the model lets the scheduler pick.
* Capabilities stored in the struct (logger, hook target, chain client) are live values;
  the only nil test of the source, on the `logger` argument of `NewBaseListener`, is kept.
* Real time is not modelled: `Event.tick` stands for the ticker channel delivering a value
  and the select of `StartPolling` taking that case.

The REST query handlers of staking/client/rest/query.go follow in `StakingRest`: a handler
is a function from the results of the calls it makes to the responses written, the log
lines and the panic that ended it, if any.
-/

namespace Listener

/-! ## Definitions -/

/-- A block header of the observed chain (a non-nil `*types.Header`). -/
structure Header where
  number : Nat
deriving DecidableEq, Repr

/-- A Go `error` value. -/
structure GoError where
  msg : String
deriving DecidableEq, Repr

/-- ErrAlreadyStarted is returned when somebody tries to start an already running service. -/
def ErrAlreadyStarted : GoError := ⟨"already started"⟩

/-- ErrAlreadyStopped is returned when somebody tries to stop an already stopped service. -/
def ErrAlreadyStopped : GoError := ⟨"already stopped"⟩

/-- ErrNotStarted is returned when somebody tries to stop a not running service. -/
def ErrNotStarted : GoError := ⟨"not started"⟩

/-- A run-time panic. -/
inductive Panic where
  | value (e : GoError)
  | nilDeref
  | badInterval
deriving DecidableEq, Repr

/-- Log level of an entry. -/
inductive Level where
  | info
  | error
deriving DecidableEq, Repr

/-- A non-nil `log.Logger`: the no-op logger of `log.NewNopLogger()` or a recording sink. -/
inductive Logger where
  | nop
  | sink (id : Nat)
deriving DecidableEq, Repr

/-- One record of the append-only log. -/
structure LogEntry where
  sink : Nat
  level : Level
  msg : String
  err : Option GoError
deriving DecidableEq, Repr

/-- Effect of `l.Info(msg)` or `l.Error(msg, "error", err)` on the log. -/
def Logger.emit (l : Logger) (lvl : Level) (msg : String) (err : Option GoError)
    (log : List LogEntry) : List LogEntry :=
  match l with
  | Logger.nop => log
  | Logger.sink id => log ++ [⟨id, lvl, msg, err⟩]

/-- A Go channel of headers: capacity, buffered values, closed flag. -/
structure Chan where
  cap : Nat
  buf : List Header
  closed : Bool
deriving DecidableEq, Repr

/-- The channel `make(chan *types.Header)`: capacity zero, nothing buffered, open. -/
def Chan.unbuffered : Chan := ⟨0, [], false⟩

/-- The contract caller obtained from `helper.NewContractCaller`. -/
structure ContractCaller where
  id : Nat
deriving DecidableEq, Repr

/-- The CLI context built in `NewBaseListener`. -/
structure CLIContext where
  codec : Nat
  broadcastAsync : Bool
  trustNode : Bool
deriving DecidableEq, Repr

/-- The struct `BaseListener`. The fields `quit` and `httpClient` are never read and are
left out. -/
structure BaseListener where
  Logger : Logger
  name : String
  started : Nat
  stopped : Nat
  impl : Nat
  contractConnector : ContractCaller
  HeaderChannel : Chan
  cancelSubscription : Option Nat
  cancelHeaderProcess : Option Nat
  cliCtx : CLIContext
  queueConnector : Nat
deriving DecidableEq, Repr

/-- Result of `MainChainClient.HeaderByNumber(ctx, nil)`. -/
structure QueryResult where
  header : Option Header
  err : Option GoError
deriving DecidableEq, Repr

/-- Control point of `StartHeaderProcess`. -/
inductive ProcPC where
  | start
  | select
  | inHook
  | exited
deriving DecidableEq, Repr

/-- Control point of `StartPolling`. -/
inductive PollPC where
  | start
  | select
  | query
  | send (h : Header)
  | exited
deriving DecidableEq, Repr

/-- Control point of `StartSubscription`. -/
inductive SubPC where
  | select
  | exited
deriving DecidableEq, Repr

/-- State of the `time.Ticker` of a polling goroutine. -/
inductive Ticker where
  | unset
  | running
  | stopped
deriving DecidableEq, Repr

/-- A goroutine launched for the listener, with the context it was given. A context
created by `context.WithCancel(context.Background())` is identified by a number, and its
`CancelFunc` with it. -/
inductive Task where
  | headerProcess (ctx : Nat) (pc : ProcPC)
  | polling (ctx : Nat) (pollInterval : Int) (pc : PollPC) (ticker : Ticker)
  | subscription (ctx : Nat) (pc : SubPC)
deriving DecidableEq, Repr

/-- Everything the listener and its goroutines read or write. `hook` lists the arguments
of the calls `impl.ProcessHeader(h)` in call order, `produced` the headers for which
`StartPolling` reached its send statement, `cancelCalls` the invocations of cancel
functions. -/
structure World where
  bl : BaseListener
  nextCtx : Nat
  cancelled : List Nat
  cancelCalls : List Nat
  tasks : List Task
  log : List LogEntry
  hook : List Header
  produced : List Header
  panicked : Option Panic
deriving DecidableEq, Repr

/-- Outcome of `NewBaseListener`: the listener or the panic, the log written, the
goroutines launched. -/
structure Construction where
  result : Except Panic BaseListener
  log : List LogEntry
  spawned : List Task

/-- NewBaseListener creates a new BaseListener. `factory` is the result of
`helper.NewContractCaller()`. -/
def NewBaseListener (factory : Except GoError ContractCaller) (cdc : Nat)
    (queueConnector : Nat) (logger : Option Logger) (name : String) (impl : Nat) :
    Construction :=
  match factory with
  | Except.error err =>
    match logger with
    | none => ⟨Except.error Panic.nilDeref, [], []⟩
    | some l =>
      ⟨Except.error (Panic.value err),
        l.emit Level.error "Error while getting root chain instance" (some err) [], []⟩
  | Except.ok contractCaller =>
    let cliCtx : CLIContext := ⟨cdc, true, true⟩
    let logger := match logger with
      | none => Logger.nop
      | some l => l
    ⟨Except.ok
      { Logger := logger
        name := name
        started := 0
        stopped := 0
        impl := impl
        contractConnector := contractCaller
        HeaderChannel := Chan.unbuffered
        cancelSubscription := none
        cancelHeaderProcess := none
        cliCtx := cliCtx
        queueConnector := queueConnector },
      [], []⟩

/-- The world in which a freshly built listener lives: no context, no goroutine. -/
def World.init (bl : BaseListener) (log : List LogEntry) : World :=
  { bl := bl, nextCtx := 0, cancelled := [], cancelCalls := [], tasks := [], log := log,
    hook := [], produced := [], panicked := none }

/-- The call `bl.Logger.Info(msg)`. -/
def World.info (w : World) (msg : String) : World :=
  { w with log := w.bl.Logger.emit Level.info msg none w.log }

/-- The call `bl.Logger.Error(msg, "error", err)`. -/
def World.error (w : World) (msg : String) (err : Option GoError) : World :=
  { w with log := w.bl.Logger.emit Level.error msg err w.log }

/-- SetLogger implements Service by setting a logger. -/
def SetLogger (w : World) (l : Logger) : World :=
  { w with bl := { w.bl with Logger := l } }

/-- String implements Service by returning a string representation of the service. -/
def BaseListener.String (bl : BaseListener) : String := bl.name

/-- The statement `ctx, cancel := context.WithCancel(context.Background())`: a context
that no earlier call returned. -/
def World.withCancel (w : World) : Nat × World :=
  (w.nextCtx, { w with nextCtx := w.nextCtx + 1 })

/-- The statement `go f(...)`: the new goroutine joins the others. -/
def World.go (w : World) (t : Task) : World :=
  { w with tasks := w.tasks ++ [t] }

/-- Start starts new block subscription. `pollInterval` is the value of
`helper.GetConfig().SyncerPollInterval` read by the call. Returns the error result and the
world after the call. -/
def Start (w : World) (pollInterval : Int) : Option GoError × World :=
  let w := w.info "Starting listener"
  -- create cancellable context
  let (ctx, w) := w.withCancel
  let w := { w with bl := { w.bl with cancelSubscription := some ctx } }
  -- create cancellable context
  let (headerCtx, w) := w.withCancel
  let w := { w with bl := { w.bl with cancelHeaderProcess := some headerCtx } }
  -- start header process
  let w := w.go (Task.headerProcess headerCtx ProcPC.start)
  -- start go routine to poll for new header using client object
  let w := w.go (Task.polling ctx pollInterval PollPC.start Ticker.unset)
  -- subscribed to new head
  let w := w.info "Subscribed to new head"
  (none, w)

/-- Invocation of the cancel function of context `c`: its `Done` channel is closed (a
second invocation changes nothing but is still an invocation). -/
def World.cancel (w : World) (c : Nat) : World :=
  { w with
    cancelled := if c ∈ w.cancelled then w.cancelled else c :: w.cancelled
    cancelCalls := w.cancelCalls ++ [c] }

/-- Replace goroutine `i`. -/
def World.setTask (w : World) (i : Nat) (t : Task) : World :=
  { w with tasks := w.tasks.set i t }

/-- What the scheduler or the environment does next. -/
inductive Event where
  /-- a call of `bl.Start()` -/
  | start (pollInterval : Int)
  /-- a call of `bl.SetLogger(l)` -/
  | setLogger (l : Logger)
  /-- a call of `bl.String()` -/
  | string
  /-- the cancel function of an existing context is invoked from outside the goroutines -/
  | cancel (c : Nat)
  /-- the statement `go bl.StartSubscription(ctx, subscription)` -/
  | goSubscription (ctx : Nat)
  /-- goroutine `i` runs up to its loop -/
  | enter (i : Nat)
  /-- the select of polling goroutine `i` takes `<-ticker.C` -/
  | tick (i : Nat)
  /-- the chain query of polling goroutine `i` returns `r` -/
  | queryReturn (i : Nat) (r : QueryResult)
  /-- the send of goroutine `i` meets the receive of goroutine `j` on an empty channel -/
  | handoff (i j : Nat)
  /-- the send of goroutine `i` puts its header into free buffer space -/
  | enqueue (i : Nat)
  /-- the receive of goroutine `j` takes the oldest buffered header -/
  | dequeue (j : Nat)
  /-- the hook call of processing goroutine `j` returns -/
  | hookReturn (j : Nat)
  /-- the select of goroutine `i` takes `<-ctx.Done()` -/
  | done (i : Nat)
  /-- the select of subscription goroutine `i` takes `err := <-subscription.Err()`; the
  value received is nil when the subscription has closed that channel -/
  | subErr (i : Nat) (e : Option GoError)
deriving DecidableEq, Repr

/-- What the processing goroutine asks of the scheduler. -/
inductive ProcAct where
  | enter
  | recv (newHeader : Header)
  | hookReturn
  | done
deriving DecidableEq, Repr

/-- StartHeaderProcess starts header process when they get new header. One step of the
goroutine at control point `pc` with context `ctx`; `recv newHeader` is the case
`newHeader := <-bl.HeaderChannel` followed by the call of the hook. -/
def StartHeaderProcess (w : World) (ctx : Nat) (pc : ProcPC) (a : ProcAct) :
    Option (World × ProcPC) :=
  match pc, a with
  | ProcPC.start, ProcAct.enter =>
    some (w.info "Starting header process", ProcPC.select)
  | ProcPC.select, ProcAct.recv newHeader =>
    some ({ w with hook := w.hook ++ [newHeader] }, ProcPC.inHook)
  | ProcPC.inHook, ProcAct.hookReturn => some (w, ProcPC.select)
  | ProcPC.select, ProcAct.done =>
    if ctx ∈ w.cancelled then some (w, ProcPC.exited) else none
  | _, _ => none

/-- What the polling goroutine asks of the scheduler. -/
inductive PollAct where
  | enter
  | tick
  | queryReturn (r : QueryResult)
  | sent
  | done
deriving DecidableEq, Repr

/-- StartPolling starts polling. One step of the goroutine at control point `pc` with
context `ctx`; `sent` is the completion of `bl.HeaderChannel <- header`. -/
def StartPolling (w : World) (ctx : Nat) (pollInterval : Int) (pc : PollPC)
    (ticker : Ticker) (a : PollAct) : Option (World × PollPC × Ticker) :=
  match pc, a with
  | PollPC.start, PollAct.enter =>
    let w := w.info "Starting polling process"
    if pollInterval ≤ 0 then
      some ({ w with panicked := some Panic.badInterval }, PollPC.exited, ticker)
    else some (w, PollPC.select, Ticker.running)
  | PollPC.select, PollAct.tick =>
    if ticker = Ticker.running then some (w, PollPC.query, ticker) else none
  | PollPC.query, PollAct.queryReturn r =>
    match r.err, r.header with
    | none, some header =>
      -- send data to channel
      some ({ w with produced := w.produced ++ [header] }, PollPC.send header, ticker)
    | _, _ => some (w, PollPC.select, ticker)
  | PollPC.send _, PollAct.sent => some (w, PollPC.select, ticker)
  | PollPC.select, PollAct.done =>
    if ctx ∈ w.cancelled then some (w, PollPC.exited, Ticker.stopped) else none
  | _, _ => none

/-- What the subscription goroutine asks of the scheduler. -/
inductive SubAct where
  | subErr (err : Option GoError)
  | done
deriving DecidableEq, Repr

/-- StartSubscription: one step of the goroutine at control point `pc` with context `ctx`. -/
def StartSubscription (w : World) (ctx : Nat) (pc : SubPC) (a : SubAct) :
    Option (World × SubPC) :=
  match pc, a with
  | SubPC.select, SubAct.subErr err =>
    -- stop service
    let w := w.error "Error while subscribing new blocks" err
    -- cancel subscription
    match w.bl.cancelSubscription with
    | none => some ({ w with panicked := some Panic.nilDeref }, SubPC.exited)
    | some c => some (w.cancel c, SubPC.exited)
  | SubPC.select, SubAct.done =>
    if ctx ∈ w.cancelled then some (w, SubPC.exited) else none
  | _, _ => none

/-- Run goroutine `i`, a processing goroutine, for one step. -/
def stepProc (w : World) (i : Nat) (a : ProcAct) : Option World :=
  match w.tasks[i]? with
  | some (Task.headerProcess ctx pc) =>
    match StartHeaderProcess w ctx pc a with
    | some (w, pc) => some (w.setTask i (Task.headerProcess ctx pc))
    | none => none
  | _ => none

/-- Run goroutine `i`, a polling goroutine, for one step. -/
def stepPoll (w : World) (i : Nat) (a : PollAct) : Option World :=
  match w.tasks[i]? with
  | some (Task.polling ctx pollInterval pc ticker) =>
    match StartPolling w ctx pollInterval pc ticker a with
    | some (w, pc, ticker) => some (w.setTask i (Task.polling ctx pollInterval pc ticker))
    | none => none
  | _ => none

/-- Run goroutine `i`, a subscription goroutine, for one step. -/
def stepSub (w : World) (i : Nat) (a : SubAct) : Option World :=
  match w.tasks[i]? with
  | some (Task.subscription ctx pc) =>
    match StartSubscription w ctx pc a with
    | some (w, pc) => some (w.setTask i (Task.subscription ctx pc))
    | none => none
  | _ => none

/-- The header goroutine `i` is blocked sending, if any. -/
def sending (w : World) (i : Nat) : Option Header :=
  match w.tasks[i]? with
  | some (Task.polling _ _ (PollPC.send h) _) => some h
  | _ => none

/-- One transition of the whole system. `none`: the event cannot happen in this world. -/
def step (w : World) (e : Event) : Option World :=
  if w.panicked.isSome then none else
  match e with
  | Event.start pollInterval => some (Start w pollInterval).2
  | Event.setLogger l => some (SetLogger w l)
  | Event.string => some w
  | Event.cancel c => if c < w.nextCtx then some (w.cancel c) else none
  | Event.goSubscription ctx =>
    if ctx < w.nextCtx then some (w.go (Task.subscription ctx SubPC.select)) else none
  | Event.enter i =>
    match w.tasks[i]? with
    | some (Task.headerProcess _ _) => stepProc w i ProcAct.enter
    | some (Task.polling _ _ _ _) => stepPoll w i PollAct.enter
    | _ => none
  | Event.tick i => stepPoll w i PollAct.tick
  | Event.queryReturn i r => stepPoll w i (PollAct.queryReturn r)
  | Event.handoff i j =>
    match sending w i with
    | some h =>
      if w.bl.HeaderChannel.buf = [] then
        match stepPoll w i PollAct.sent with
        | some w => stepProc w j (ProcAct.recv h)
        | none => none
      else none
    | none => none
  | Event.enqueue i =>
    match sending w i with
    | some h =>
      if w.bl.HeaderChannel.buf.length < w.bl.HeaderChannel.cap then
        stepPoll
          { w with bl := { w.bl with HeaderChannel :=
              { w.bl.HeaderChannel with buf := w.bl.HeaderChannel.buf ++ [h] } } }
          i PollAct.sent
      else none
    | none => none
  | Event.dequeue j =>
    match w.bl.HeaderChannel.buf with
    | h :: rest =>
      stepProc
        { w with bl := { w.bl with HeaderChannel := { w.bl.HeaderChannel with buf := rest } } }
        j (ProcAct.recv h)
    | [] => none
  | Event.hookReturn j => stepProc w j ProcAct.hookReturn
  | Event.done i =>
    match w.tasks[i]? with
    | some (Task.headerProcess _ _) => stepProc w i ProcAct.done
    | some (Task.polling _ _ _ _) => stepPoll w i PollAct.done
    | some (Task.subscription _ _) => stepSub w i SubAct.done
    | none => none
  | Event.subErr i e => stepSub w i (SubAct.subErr e)

/-- Feed a schedule to the system; `none` when one of its events cannot happen. -/
def run (w : World) : List Event → Option World
  | [] => some w
  | e :: es =>
    match step w e with
    | some w => run w es
    | none => none

/-- The header a polling goroutine at this control point is trying to send. -/
def PollPC.held : PollPC → List Header
  | PollPC.send h => [h]
  | _ => []

/-- Headers held by the polling goroutines among `ts` that are blocked in
`bl.HeaderChannel <- header`. -/
def heldBy : List Task → List Header
  | [] => []
  | Task.polling _ _ pc _ :: ts => pc.held ++ heldBy ts
  | _ :: ts => heldBy ts

/-- Headers of the pending sends. -/
def pending (w : World) : List Header := heldBy w.tasks

/-- The operations that launch goroutines. -/
def Event.launches : Event → Bool
  | Event.start _ => true
  | Event.goSubscription _ => true
  | _ => false

/-- Shape of the system after one `Start`: the processing goroutine and the polling
goroutine around the unbuffered channel, and every produced header either handed to the
hook or held by the blocked send. -/
structure Single (w : World) : Prop where
  shape : ∃ d pp c iv sp tk, w.tasks = [Task.headerProcess d pp, Task.polling c iv sp tk]
  cap : w.bl.HeaderChannel.cap = 0
  buf : w.bl.HeaderChannel.buf = []
  closed : w.bl.HeaderChannel.closed = false
  flow : w.produced = w.hook ++ pending w

/-- The listener right after construction and one call of `Start`. -/
def afterStart (bl : BaseListener) (pollInterval : Int) : World :=
  (Start (World.init bl []) pollInterval).2

/-! ## Example data -/

/-- The listener `NewBaseListener` returns for a working factory, a recording logger and
the name "rootchain". -/
def exBl : BaseListener :=
  { Logger := Logger.sink 0
    name := "rootchain"
    started := 0
    stopped := 0
    impl := 1
    contractConnector := ⟨7⟩
    HeaderChannel := ⟨0, [], false⟩
    cancelSubscription := none
    cancelHeaderProcess := none
    cliCtx := ⟨0, true, true⟩
    queueConnector := 0 }

/-- The world after `Start` on `exBl` with poll interval 5, once both goroutines have
entered their loops. -/
def exRunning : World :=
  { bl := { exBl with cancelSubscription := some 0, cancelHeaderProcess := some 1 }
    nextCtx := 2
    cancelled := []
    cancelCalls := []
    tasks := [Task.headerProcess 1 ProcPC.select,
      Task.polling 0 5 PollPC.select Ticker.running]
    log := [⟨0, Level.info, "Starting listener", none⟩,
      ⟨0, Level.info, "Subscribed to new head", none⟩,
      ⟨0, Level.info, "Starting header process", none⟩,
      ⟨0, Level.info, "Starting polling process", none⟩]
    hook := []
    produced := []
    panicked := none }

/-- A successful chain query returning the header with the given number. -/
def exHeader (n : Nat) : QueryResult := ⟨some ⟨n⟩, none⟩

/-- The schedule that brings both goroutines into their loops. -/
def exEnter : List Event := [Event.enter 0, Event.enter 1]

/-- One poll of header `n` delivered to the hook, the hook call still running. -/
def exDeliver (n : Nat) : List Event :=
  [Event.tick 1, Event.queryReturn 1 (exHeader n), Event.handoff 1 0]

/-- A producer goroutine (polling or subscription) that has been launched and has not
returned. -/
def Task.activeProducer : Task → Bool
  | Task.polling _ _ pc _ => decide (pc ≠ PollPC.exited)
  | Task.subscription _ pc => decide (pc ≠ SubPC.exited)
  | Task.headerProcess _ _ => false

/-- Number of active producer goroutines of the listener. -/
def activeProducers (w : World) : Nat := (w.tasks.filter Task.activeProducer).length

/-- The running example with header 100 polled, its send blocked, and then the context
`c` cancelled from outside. -/
def exBlockedSend (c : Nat) : World :=
  { exRunning with
    tasks := [Task.headerProcess 1 ProcPC.select,
      Task.polling 0 5 (PollPC.send ⟨100⟩) Ticker.running]
    produced := [⟨100⟩]
    cancelled := [c]
    cancelCalls := [c] }

/-- The contexts behind the stored handles and behind the processing goroutines: all were
created by `Start`, the acquisition handle never belongs to a processing goroutine, and
the two handles differ. -/
structure Handles (w : World) : Prop where
  procCtx : ∀ d pc, Task.headerProcess d pc ∈ w.tasks → d < w.nextCtx
  sub : ∀ c, w.bl.cancelSubscription = some c →
    c < w.nextCtx ∧ ∀ d pc, Task.headerProcess d pc ∈ w.tasks → d ≠ c
  distinct : ∀ c d, w.bl.cancelSubscription = some c → w.bl.cancelHeaderProcess = some d →
    c ≠ d

/-- The world after `Start` on `exBl` and the launch of a subscription goroutine with the
acquisition context. -/
def exSubscribed : World :=
  { bl := { exBl with cancelSubscription := some 0, cancelHeaderProcess := some 1 }
    nextCtx := 2
    cancelled := []
    cancelCalls := []
    tasks := [Task.headerProcess 1 ProcPC.start,
      Task.polling 0 5 PollPC.start Ticker.unset,
      Task.subscription 0 SubPC.select]
    log := [⟨0, Level.info, "Starting listener", none⟩,
      ⟨0, Level.info, "Subscribed to new head", none⟩]
    hook := []
    produced := []
    panicked := none }

end Listener

/-! # Staking REST queries (staking/client/rest/query.go) -/

namespace StakingRest

/-- What `cliCtx.QueryWithData(path, data)` returns: the bytes, the height, the error. -/
structure QueryData where
  res : List Nat
  height : Int
  err : Option Listener.GoError
deriving DecidableEq, Repr

/-- What a handler writes to its `http.ResponseWriter`. -/
inductive Response where
  | error (status : Nat) (msg : String)
  | notFound (msg : String)
  | ok (body : List Nat)
deriving DecidableEq, Repr

/-- Value logged next to the message of a `RestLogger` call. -/
inductive LogArg where
  | text (s : String)
  | bytes (b : List Nat)
  | err (e : Listener.GoError)
deriving DecidableEq, Repr

/-- One call of `RestLogger.Debug` or `RestLogger.Error`. -/
structure LogLine where
  level : String
  msg : String
  arg : LogArg
deriving DecidableEq, Repr

/-- What running a handler on one request leaves behind: the responses written, the log
lines, and the panic that ended it, if any. -/
structure Outcome where
  written : List Response
  log : List LogLine
  panic : Option Listener.Panic
deriving DecidableEq, Repr

/-- The constant `http.StatusBadRequest`. -/
def StatusBadRequest : Nat := 400

/-- The constant `http.StatusInternalServerError`. -/
def StatusInternalServerError : Nat := 500

/-- The method call `err.Error()` on an `error` interface value: a nil value has no method
to call and the call panics. -/
def Error (err : Option Listener.GoError) : Except Listener.Panic String :=
  match err with
  | none => Except.error Listener.Panic.nilDeref
  | some e => Except.ok e.msg

/-- Modelled from the spec: `hmRest.ReturnNotFoundIfNoContent` of types/rest is not among
the sources; it returns false exactly when the data is empty, after writing the not-found
response with the given message, and true otherwise. -/
def ReturnNotFoundIfNoContent (written : List Response) (data : List Nat) (message : String) :
    List Response × Bool :=
  if data = [] then (written ++ [Response.notFound message], false) else (written, true)

/-- The handler `currentProposerHandlerFn`: get proposer for current validator set. -/
def currentProposerHandlerFn (q : QueryData) : Outcome :=
  match q.err with
  | some e =>
    ⟨[Response.error StatusBadRequest e.msg],
      [⟨"error", "Error while fetching current proposer ", LogArg.text e.msg⟩], none⟩
  | none =>
    -- error if no checkpoint found
    match ReturnNotFoundIfNoContent [] q.res "No proposer found" with
    | (written, false) => ⟨written, [], none⟩
    | (written, true) =>
      -- return result
      ⟨written ++ [Response.ok q.res], [], none⟩

/-- The handler `initialRewardRootHandlerFn` returns genesis rewardroothash. `marshal` is
the result of `json.Marshal(&rewardRootHash)`. -/
def initialRewardRootHandlerFn (q : QueryData)
    (marshal : Except Listener.GoError (List Nat)) : Outcome :=
  let log := [(⟨"debug", "initial rewardRootHash querier response", LogArg.bytes q.res⟩ : LogLine)]
  match q.err with
  | some e =>
    ⟨[Response.error StatusBadRequest e.msg],
      log ++ [⟨"error", "Error while calculating Initial Rewardroot ", LogArg.text e.msg⟩], none⟩
  | none =>
    -- error if no checkpoint found
    match ReturnNotFoundIfNoContent [] q.res "RewardRootHash not found" with
    | (written, false) =>
      match Error q.err with
      | Except.error p => ⟨written, log, some p⟩
      | Except.ok s => ⟨written, log ++ [⟨"error", "RewardRootHash not found ", LogArg.text s⟩], none⟩
    | (written, true) =>
      let log := log ++ [⟨"debug", "Fetched initial rewardRootHash ", LogArg.bytes q.res⟩]
      match marshal with
      | Except.error e =>
        ⟨written ++ [Response.error StatusBadRequest e.msg],
          log ++ [⟨"error", "Error while marshalling response to Json", LogArg.err e⟩], none⟩
      | Except.ok result => ⟨written ++ [Response.ok result], log, none⟩

/-- The handler `proposerBonusPercentHandlerFn` returns proposer Bonus Percent information.
`unmarshal` is the error of `cliCtx.Codec.UnmarshalJSON(res, &_proposerBonusPercent)`,
`marshal` the result of `json.Marshal(_proposerBonusPercent)`. -/
def proposerBonusPercentHandlerFn (q : QueryData) (unmarshal : Option Listener.GoError)
    (marshal : Except Listener.GoError (List Nat)) : Outcome :=
  -- fetch state reocrd
  match q.err with
  | some e =>
    ⟨[Response.error StatusInternalServerError e.msg],
      [⟨"error", "Error while fetching proposer bonus percentage", LogArg.text e.msg⟩], none⟩
  | none =>
    -- error if no checkpoint found
    match ReturnNotFoundIfNoContent [] q.res "Proposer bonus percentage not found" with
    | (written, false) =>
      match Error q.err with
      | Except.error p => ⟨written, [], some p⟩
      | Except.ok s =>
        ⟨written, [⟨"error", "Proposer bonus percentage not found ", LogArg.text s⟩], none⟩
    | (written, true) =>
      match unmarshal with
      | some e => ⟨written ++ [Response.error StatusBadRequest e.msg], [], none⟩
      | none =>
        match marshal with
        | Except.error e =>
          ⟨written ++ [Response.error StatusBadRequest e.msg],
            [⟨"error", "Error while marshalling resposne to Json", LogArg.err e⟩], none⟩
        | Except.ok result => ⟨written ++ [Response.ok result], [], none⟩

end StakingRest

namespace Listener

/-! ## Lemmas -/

theorem stepPoll_single {w w' : World} {i : Nat} {a : PollAct} {d c pp iv sp tk}
    (ht : w.tasks = [Task.headerProcess d pp, Task.polling c iv sp tk])
    (hs : stepPoll w i a = some w') :
    i = 1 ∧ ∃ w1 sp' tk', StartPolling w c iv sp tk a = some (w1, sp', tk') ∧
      w' = w1.setTask 1 (Task.polling c iv sp' tk') := by
  unfold stepPoll at hs
  rw [ht] at hs
  match i, hs with
  | 0, hs => simp at hs
  | 1, hs =>
    simp only [List.getElem?_cons_succ, List.getElem?_cons_zero] at hs
    refine ⟨rfl, ?_⟩
    cases hq : StartPolling w c iv sp tk a with
    | none => simp [hq] at hs
    | some r =>
      obtain ⟨w1, sp', tk'⟩ := r
      simp [hq] at hs
      exact ⟨w1, sp', tk', rfl, hs.symm⟩
  | n + 2, hs => simp at hs

theorem stepProc_single {w w' : World} {i : Nat} {a : ProcAct} {d c pp iv sp tk}
    (ht : w.tasks = [Task.headerProcess d pp, Task.polling c iv sp tk])
    (hs : stepProc w i a = some w') :
    i = 0 ∧ ∃ w1 pp', StartHeaderProcess w d pp a = some (w1, pp') ∧
      w' = w1.setTask 0 (Task.headerProcess d pp') := by
  unfold stepProc at hs
  rw [ht] at hs
  match i, hs with
  | 0, hs =>
    simp only [List.getElem?_cons_zero] at hs
    refine ⟨rfl, ?_⟩
    cases hq : StartHeaderProcess w d pp a with
    | none => simp [hq] at hs
    | some r =>
      obtain ⟨w1, pp'⟩ := r
      simp [hq] at hs
      exact ⟨w1, pp', rfl, hs.symm⟩
  | 1, hs => simp at hs
  | n + 2, hs => simp at hs

theorem StartPolling_spec {w w1 : World} {c : Nat} {iv : Int} {sp sp' : PollPC}
    {tk tk' : Ticker} {a : PollAct}
    (hq : StartPolling w c iv sp tk a = some (w1, sp', tk')) :
    w1.tasks = w.tasks ∧ w1.bl = w.bl ∧ w1.hook = w.hook ∧
    w1.cancelled = w.cancelled ∧
    (a ≠ PollAct.sent → sp.held = [] ∧ w1.produced = w.produced ++ sp'.held) ∧
    (a = PollAct.sent → sp' = PollPC.select ∧ w1 = w ∧ tk' = tk) := by
  unfold StartPolling at hq
  split at hq
  · split at hq
    · simp at hq
      obtain ⟨rfl, rfl, rfl⟩ := hq
      simp [World.info, PollPC.held]
    · simp at hq
      obtain ⟨rfl, rfl, rfl⟩ := hq
      simp [World.info, PollPC.held]
  · split at hq
    · simp at hq
      obtain ⟨rfl, rfl, rfl⟩ := hq
      simp [PollPC.held]
    · simp at hq
  · split at hq
    · simp at hq
      obtain ⟨rfl, rfl, rfl⟩ := hq
      simp [PollPC.held]
    · simp at hq
      obtain ⟨rfl, rfl, rfl⟩ := hq
      simp [PollPC.held]
  · simp at hq
    obtain ⟨rfl, rfl, rfl⟩ := hq
    simp [PollPC.held]
  · split at hq
    · simp at hq
      obtain ⟨rfl, rfl, rfl⟩ := hq
      simp [PollPC.held]
    · simp at hq
  · simp at hq

theorem StartHeaderProcess_spec {w w1 : World} {d : Nat} {pp pp' : ProcPC} {a : ProcAct}
    (hq : StartHeaderProcess w d pp a = some (w1, pp')) :
    w1.tasks = w.tasks ∧ w1.bl = w.bl ∧ w1.produced = w.produced ∧
    w1.cancelled = w.cancelled ∧
    (∀ h, a = ProcAct.recv h → w1.hook = w.hook ++ [h]) ∧
    ((∀ h, a ≠ ProcAct.recv h) → w1.hook = w.hook) := by
  unfold StartHeaderProcess at hq
  split at hq
  · simp at hq
    obtain ⟨rfl, rfl⟩ := hq
    simp [World.info]
  · simp at hq
    obtain ⟨rfl, rfl⟩ := hq
    simp
  · simp at hq
    obtain ⟨rfl, rfl⟩ := hq
    simp
  · split at hq
    · simp at hq
      obtain ⟨rfl, rfl⟩ := hq
      simp
    · simp at hq
  · simp at hq

theorem Single_poll {w w' : World} {i : Nat} {a : PollAct} (h : Single w)
    (ha : a ≠ PollAct.sent) (hs : stepPoll w i a = some w') : Single w' := by
  obtain ⟨⟨d, pp, c, iv, sp, tk, ht⟩, hcap, hbuf, hcl, hflow⟩ := h
  obtain ⟨-, w1, sp', tk', hq, rfl⟩ := stepPoll_single ht hs
  obtain ⟨h1, h2, h3, -, h5, -⟩ := StartPolling_spec hq
  obtain ⟨h6, h7⟩ := h5 ha
  simp only [pending, ht, heldBy, h6] at hflow
  refine ⟨⟨d, pp, c, iv, sp', tk', by simp [World.setTask, h1, ht]⟩, ?_, ?_, ?_, ?_⟩
  · simpa [World.setTask, h2] using hcap
  · simpa [World.setTask, h2] using hbuf
  · simpa [World.setTask, h2] using hcl
  · simp [World.setTask, pending, h1, ht, heldBy, h7, h3, hflow]

theorem Single_proc {w w' : World} {i : Nat} {a : ProcAct} (h : Single w)
    (ha : ∀ h, a ≠ ProcAct.recv h) (hs : stepProc w i a = some w') : Single w' := by
  obtain ⟨⟨d, pp, c, iv, sp, tk, ht⟩, hcap, hbuf, hcl, hflow⟩ := h
  obtain ⟨-, w1, pp', hq, rfl⟩ := stepProc_single ht hs
  obtain ⟨h1, h2, h3, -, -, h5⟩ := StartHeaderProcess_spec hq
  simp only [pending, ht, heldBy] at hflow
  refine ⟨⟨d, pp', c, iv, sp, tk, by simp [World.setTask, h1, ht]⟩, ?_, ?_, ?_, ?_⟩
  · simpa [World.setTask, h2] using hcap
  · simpa [World.setTask, h2] using hbuf
  · simpa [World.setTask, h2] using hcl
  · simp [World.setTask, pending, h1, ht, heldBy, h3, h5 ha, hflow]

theorem Single_handoff {w w' : World} {i j : Nat} (h : Single w)
    (hs : step w (Event.handoff i j) = some w') : Single w' := by
  obtain ⟨⟨d, pp, c, iv, sp, tk, ht⟩, hcap, hbuf, hcl, hflow⟩ := h
  unfold step at hs
  split at hs
  · simp at hs
  simp only [hbuf, if_true] at hs
  cases hh : sending w i with
  | none => simp [hh] at hs
  | some hd =>
    simp only [hh] at hs
    cases hp : stepPoll w i PollAct.sent with
    | none => simp [hp] at hs
    | some w2 =>
      simp only [hp] at hs
      obtain ⟨rfl, w1, sp', tk', hq, rfl⟩ := stepPoll_single ht hp
      obtain ⟨h1, h2, h3, -, -, h6⟩ := StartPolling_spec hq
      obtain ⟨rfl, rfl, rfl⟩ := h6 rfl
      have hsp : sp = PollPC.send hd := by
        simp only [sending, ht, List.getElem?_cons_succ, List.getElem?_cons_zero] at hh
        split at hh
        · rename_i heq
          simp at heq hh
          rw [heq.2.2.1, hh]
        · simp at hh
      subst hsp
      have ht2 : (w1.setTask 1 (Task.polling c iv PollPC.select tk')).tasks =
          [Task.headerProcess d pp, Task.polling c iv PollPC.select tk'] := by
        simp [World.setTask, ht]
      obtain ⟨-, w3, pp', hq3, rfl⟩ := stepProc_single ht2 hs
      obtain ⟨k1, k2, k3, -, k5, -⟩ := StartHeaderProcess_spec hq3
      simp only [pending, ht, heldBy, PollPC.held] at hflow
      refine ⟨⟨d, pp', c, iv, PollPC.select, tk', by simp [World.setTask, k1, ht]⟩, ?_, ?_, ?_, ?_⟩
      · simpa [World.setTask, k2] using hcap
      · simpa [World.setTask, k2] using hbuf
      · simpa [World.setTask, k2] using hcl
      · simp [World.setTask] at k3 k1
        simp [World.setTask, pending, k1, ht, heldBy, k3, k5 hd rfl, hflow, PollPC.held]

theorem Single_step {w w' : World} {e : Event} (h : Single w) (he : e.launches = false)
    (hs : step w e = some w') : Single w' := by
  cases e with
  | start iv => simp [Event.launches] at he
  | goSubscription c => simp [Event.launches] at he
  | handoff i j => exact Single_handoff h hs
  | setLogger l =>
    unfold Listener.step at hs
    split at hs
    · simp at hs
    · simp at hs
      subst hs
      obtain ⟨hsh, hcap, hbuf, hcl, hflow⟩ := h
      exact ⟨hsh, hcap, hbuf, hcl, hflow⟩
  | string =>
    unfold Listener.step at hs
    split at hs
    · simp at hs
    · simp at hs
      subst hs
      exact h
  | cancel c =>
    unfold Listener.step at hs
    split at hs
    · simp at hs
    · simp at hs
      obtain ⟨-, rfl⟩ := hs
      obtain ⟨hsh, hcap, hbuf, hcl, hflow⟩ := h
      exact ⟨hsh, hcap, hbuf, hcl, hflow⟩
  | enter i =>
    unfold Listener.step at hs
    split at hs
    · simp at hs
    · simp only at hs
      split at hs
      · exact Single_proc h (by simp) hs
      · exact Single_poll h (by simp) hs
      · simp at hs
  | tick i =>
    unfold Listener.step at hs
    split at hs
    · simp at hs
    · exact Single_poll h (by simp) hs
  | queryReturn i r =>
    unfold Listener.step at hs
    split at hs
    · simp at hs
    · exact Single_poll h (by simp) hs
  | enqueue i =>
    unfold Listener.step at hs
    split at hs
    · simp at hs
    · simp only [h.cap, h.buf] at hs
      split at hs <;> simp at hs
  | dequeue j =>
    unfold Listener.step at hs
    split at hs
    · simp at hs
    · simp only [h.buf] at hs
      simp at hs
  | hookReturn j =>
    unfold Listener.step at hs
    split at hs
    · simp at hs
    · exact Single_proc h (by simp) hs
  | done i =>
    unfold Listener.step at hs
    split at hs
    · simp at hs
    · simp only at hs
      split at hs
      · exact Single_proc h (by simp) hs
      · exact Single_poll h (by simp) hs
      · rename_i heq
        obtain ⟨d, pp, c, iv, sp, tk, ht⟩ := h.shape
        rw [ht] at heq
        match i, heq with
        | 0, heq => simp at heq
        | 1, heq => simp at heq
        | n + 2, heq => simp at heq
      · simp at hs
  | subErr i e =>
    unfold Listener.step at hs
    split at hs
    · simp at hs
    · simp only [stepSub] at hs
      obtain ⟨d, pp, c, iv, sp, tk, ht⟩ := h.shape
      rw [ht] at hs
      match i, hs with
      | 0, hs => simp at hs
      | 1, hs => simp at hs
      | n + 2, hs => simp at hs

theorem stepPoll_inv {w w' : World} {i : Nat} {a : PollAct}
    (hs : stepPoll w i a = some w') :
    ∃ c iv sp tk w1 sp' tk', w.tasks[i]? = some (Task.polling c iv sp tk) ∧
      StartPolling w c iv sp tk a = some (w1, sp', tk') ∧
      w' = w1.setTask i (Task.polling c iv sp' tk') := by
  unfold stepPoll at hs
  split at hs
  · rename_i c iv sp tk heq
    cases hq : StartPolling w c iv sp tk a with
    | none => simp [hq] at hs
    | some r =>
      obtain ⟨w1, sp', tk'⟩ := r
      simp [hq] at hs
      exact ⟨c, iv, sp, tk, w1, sp', tk', heq, hq, hs.symm⟩
  · simp at hs

theorem stepProc_inv {w w' : World} {i : Nat} {a : ProcAct}
    (hs : stepProc w i a = some w') :
    ∃ d pp w1 pp', w.tasks[i]? = some (Task.headerProcess d pp) ∧
      StartHeaderProcess w d pp a = some (w1, pp') ∧
      w' = w1.setTask i (Task.headerProcess d pp') := by
  unfold stepProc at hs
  split at hs
  · rename_i d pp heq
    cases hq : StartHeaderProcess w d pp a with
    | none => simp [hq] at hs
    | some r =>
      obtain ⟨w1, pp'⟩ := r
      simp [hq] at hs
      exact ⟨d, pp, w1, pp', heq, hq, hs.symm⟩
  · simp at hs

theorem StartSubscription_spec {w w1 : World} {c : Nat} {sp sp' : SubPC} {a : SubAct}
    (hq : StartSubscription w c sp a = some (w1, sp')) :
    w1.tasks = w.tasks ∧ w1.bl = w.bl ∧ w1.hook = w.hook ∧ w1.produced = w.produced ∧
    sp = SubPC.select ∧ sp' = SubPC.exited := by
  unfold StartSubscription at hq
  split at hq
  · dsimp only at hq
    split at hq
    · simp at hq
      obtain ⟨rfl, rfl⟩ := hq
      simp [World.error]
    · simp at hq
      obtain ⟨rfl, rfl⟩ := hq
      simp [World.cancel, World.error]
  · split at hq
    · simp at hq
      obtain ⟨rfl, rfl⟩ := hq
      simp
    · simp at hq
  · simp at hq

theorem stepSub_inv {w w' : World} {i : Nat} {a : SubAct}
    (hs : stepSub w i a = some w') :
    ∃ c sp w1 sp', w.tasks[i]? = some (Task.subscription c sp) ∧
      StartSubscription w c sp a = some (w1, sp') ∧
      w' = w1.setTask i (Task.subscription c sp') := by
  unfold stepSub at hs
  split at hs
  · rename_i c sp heq
    cases hq : StartSubscription w c sp a with
    | none => simp [hq] at hs
    | some r =>
      obtain ⟨w1, sp'⟩ := r
      simp [hq] at hs
      exact ⟨c, sp, w1, sp', heq, hq, hs.symm⟩
  · simp at hs

/-- What a step of a polling goroutine leaves alone. -/
theorem stepPoll_frame {w w' : World} {i : Nat} {a : PollAct}
    (hs : stepPoll w i a = some w') :
    w'.hook = w.hook ∧ w'.bl = w.bl ∧ ∃ l, w'.produced = w.produced ++ l := by
  obtain ⟨c, iv, sp, tk, w1, sp', tk', -, hq, rfl⟩ := stepPoll_inv hs
  obtain ⟨-, h2, h3, -, h5, h6⟩ := StartPolling_spec hq
  refine ⟨by simpa [World.setTask] using h3, by simpa [World.setTask] using h2, ?_⟩
  by_cases ha : a = PollAct.sent
  · obtain ⟨-, rfl, -⟩ := h6 ha
    exact ⟨[], by simp [World.setTask]⟩
  · exact ⟨sp'.held, by simpa [World.setTask] using (h5 ha).2⟩

/-- What a step of a processing goroutine leaves alone. -/
theorem stepProc_frame {w w' : World} {i : Nat} {a : ProcAct}
    (hs : stepProc w i a = some w') :
    w'.produced = w.produced ∧ w'.bl = w.bl ∧ ∃ l, w'.hook = w.hook ++ l := by
  obtain ⟨d, pp, w1, pp', -, hq, rfl⟩ := stepProc_inv hs
  obtain ⟨-, h2, h3, -, h5, h6⟩ := StartHeaderProcess_spec hq
  refine ⟨by simpa [World.setTask] using h3, by simpa [World.setTask] using h2, ?_⟩
  cases a with
  | recv h => exact ⟨[h], by simpa [World.setTask] using h5 h rfl⟩
  | enter => exact ⟨[], by simpa [World.setTask] using h6 (by simp)⟩
  | hookReturn => exact ⟨[], by simpa [World.setTask] using h6 (by simp)⟩
  | done => exact ⟨[], by simpa [World.setTask] using h6 (by simp)⟩

/-- What a step of a subscription goroutine leaves alone. -/
theorem stepSub_frame {w w' : World} {i : Nat} {a : SubAct}
    (hs : stepSub w i a = some w') :
    w'.produced = w.produced ∧ w'.hook = w.hook ∧ w'.bl = w.bl := by
  obtain ⟨c, sp, w1, sp', -, hq, rfl⟩ := stepSub_inv hs
  obtain ⟨-, h2, h3, h4, -⟩ := StartSubscription_spec hq
  exact ⟨by simpa [World.setTask] using h4, by simpa [World.setTask] using h3,
    by simpa [World.setTask] using h2⟩

/-- Both observation lists only grow at their end, and the channel is never closed. -/
theorem step_grows {w w' : World} {e : Event} (hs : step w e = some w') :
    (∃ l, w'.produced = w.produced ++ l) ∧ (∃ l, w'.hook = w.hook ++ l) ∧
    w'.bl.HeaderChannel.closed = w.bl.HeaderChannel.closed := by
  unfold step at hs
  split at hs
  · simp at hs
  cases e with
  | start iv =>
    simp at hs
    subst hs
    exact ⟨⟨[], by simp [Start, World.info, World.withCancel, World.go]⟩,
      ⟨[], by simp [Start, World.info, World.withCancel, World.go]⟩,
      by simp [Start, World.info, World.withCancel, World.go]⟩
  | setLogger l =>
    simp at hs
    subst hs
    exact ⟨⟨[], by simp [SetLogger]⟩, ⟨[], by simp [SetLogger]⟩, by simp [SetLogger]⟩
  | string =>
    simp at hs
    subst hs
    exact ⟨⟨[], by simp⟩, ⟨[], by simp⟩, rfl⟩
  | cancel c =>
    simp at hs
    obtain ⟨-, rfl⟩ := hs
    exact ⟨⟨[], by simp [World.cancel]⟩, ⟨[], by simp [World.cancel]⟩, by simp [World.cancel]⟩
  | goSubscription c =>
    simp at hs
    obtain ⟨-, rfl⟩ := hs
    exact ⟨⟨[], by simp [World.go]⟩, ⟨[], by simp [World.go]⟩, by simp [World.go]⟩
  | enter i =>
    simp only at hs
    split at hs
    · obtain ⟨h1, h2, l, h3⟩ := stepProc_frame hs
      exact ⟨⟨[], by simp [h1]⟩, ⟨l, h3⟩, by rw [h2]⟩
    · obtain ⟨h1, h2, l, h3⟩ := stepPoll_frame hs
      exact ⟨⟨l, h3⟩, ⟨[], by simp [h1]⟩, by rw [h2]⟩
    · simp at hs
  | tick i =>
    obtain ⟨h1, h2, l, h3⟩ := stepPoll_frame hs
    exact ⟨⟨l, h3⟩, ⟨[], by simp [h1]⟩, by rw [h2]⟩
  | queryReturn i r =>
    obtain ⟨h1, h2, l, h3⟩ := stepPoll_frame hs
    exact ⟨⟨l, h3⟩, ⟨[], by simp [h1]⟩, by rw [h2]⟩
  | handoff i j =>
    simp only at hs
    split at hs
    · split at hs
      · split at hs
        · rename_i w2 hp
          obtain ⟨h1, h2, l, h3⟩ := stepPoll_frame hp
          obtain ⟨k1, k2, m, k3⟩ := stepProc_frame hs
          exact ⟨⟨l, by rw [k1, h3]⟩, ⟨m, by rw [k3, h1]⟩, by rw [k2, h2]⟩
        · simp at hs
      · simp at hs
    · simp at hs
  | enqueue i =>
    simp only at hs
    split at hs
    · split at hs
      · obtain ⟨h1, h2, l, h3⟩ := stepPoll_frame hs
        exact ⟨⟨l, h3⟩, ⟨[], by simp [h1]⟩, by rw [h2]⟩
      · simp at hs
    · simp at hs
  | dequeue j =>
    simp only at hs
    split at hs
    · obtain ⟨h1, h2, l, h3⟩ := stepProc_frame hs
      exact ⟨⟨[], by simp [h1]⟩, ⟨l, h3⟩, by rw [h2]⟩
    · simp at hs
  | hookReturn j =>
    obtain ⟨h1, h2, l, h3⟩ := stepProc_frame hs
    exact ⟨⟨[], by simp [h1]⟩, ⟨l, h3⟩, by rw [h2]⟩
  | done i =>
    simp only at hs
    split at hs
    · obtain ⟨h1, h2, l, h3⟩ := stepProc_frame hs
      exact ⟨⟨[], by simp [h1]⟩, ⟨l, h3⟩, by rw [h2]⟩
    · obtain ⟨h1, h2, l, h3⟩ := stepPoll_frame hs
      exact ⟨⟨l, h3⟩, ⟨[], by simp [h1]⟩, by rw [h2]⟩
    · obtain ⟨h1, h2, h3⟩ := stepSub_frame hs
      exact ⟨⟨[], by simp [h1]⟩, ⟨[], by simp [h2]⟩, by rw [h3]⟩
    · simp at hs
  | subErr i e =>
    obtain ⟨h1, h2, h3⟩ := stepSub_frame hs
    exact ⟨⟨[], by simp [h1]⟩, ⟨[], by simp [h2]⟩, by rw [h3]⟩

theorem run_grows {evs : List Event} {w w' : World} (hr : run w evs = some w') :
    (∃ l, w'.produced = w.produced ++ l) ∧ (∃ l, w'.hook = w.hook ++ l) ∧
    w'.bl.HeaderChannel.closed = w.bl.HeaderChannel.closed := by
  induction evs generalizing w with
  | nil =>
    simp [run] at hr
    subst hr
    exact ⟨⟨[], by simp⟩, ⟨[], by simp⟩, rfl⟩
  | cons e es ih =>
    simp only [run] at hr
    cases hs : step w e with
    | none => simp [hs] at hr
    | some w1 =>
      simp only [hs] at hr
      obtain ⟨⟨l1, h1⟩, ⟨m1, k1⟩, c1⟩ := step_grows hs
      obtain ⟨⟨l2, h2⟩, ⟨m2, k2⟩, c2⟩ := ih hr
      exact ⟨⟨l1 ++ l2, by rw [h2, h1, List.append_assoc]⟩,
        ⟨m1 ++ m2, by rw [k2, k1, List.append_assoc]⟩, by rw [c2, c1]⟩

theorem Single_run {evs : List Event} {w w' : World} (h : Single w)
    (hl : ∀ e ∈ evs, e.launches = false) (hr : run w evs = some w') : Single w' := by
  induction evs generalizing w with
  | nil =>
    simp [Listener.run] at hr
    subst hr
    exact h
  | cons e es ih =>
    simp only [Listener.run] at hr
    cases hs : Listener.step w e with
    | none => simp [hs] at hr
    | some w1 =>
      simp only [hs] at hr
      exact ih (Single_step h (hl e (by simp)) hs) (fun e he => hl e (by simp [he])) hr

theorem run_append {evs1 evs2 : List Event} {w : World} :
    run w (evs1 ++ evs2) = (run w evs1).bind fun w1 => run w1 evs2 := by
  induction evs1 generalizing w with
  | nil => simp [run]
  | cons e es ih =>
    simp only [List.cons_append, run]
    cases step w e with
    | none => simp
    | some w1 => simpa using ih

theorem NewBaseListener_ok {factory : Except GoError ContractCaller} {cdc qc : Nat}
    {logger : Option Logger} {name : String} {impl : Nat} {bl : BaseListener}
    (h : (NewBaseListener factory cdc qc logger name impl).result = Except.ok bl) :
    bl.HeaderChannel = Chan.unbuffered ∧ bl.started = 0 ∧ bl.stopped = 0 ∧
    bl.cancelSubscription = none ∧ bl.cancelHeaderProcess = none ∧ bl.name = name ∧
    (NewBaseListener factory cdc qc logger name impl).log = [] := by
  unfold NewBaseListener at h ⊢
  cases factory with
  | error e => cases logger <;> simp at h
  | ok cc =>
    simp at h
    subst h
    simp

theorem Single_afterStart {bl : BaseListener} (h : bl.HeaderChannel = Chan.unbuffered)
    (iv : Int) : Single (afterStart bl iv) := by
  refine ⟨⟨1, ProcPC.start, 0, iv, PollPC.start, Ticker.unset, ?_⟩, ?_, ?_, ?_, ?_⟩ <;>
    simp [Listener.afterStart, Start, World.init, World.info, World.withCancel, World.go, h,
      Chan.unbuffered, pending, heldBy, PollPC.held]

theorem set_same {α : Type} {l : List α} {i : Nat} {t : α} (h : l[i]? = some t) :
    l.set i t = l := by
  induction l generalizing i with
  | nil => simp
  | cons x xs ih =>
    cases i with
    | zero =>
      simp at h
      simp [h]
    | succ n =>
      simp at h
      simp [ih h]

theorem getElem?_set_here {α : Type} {l : List α} {i : Nat} {t u : α} (h : l[i]? = some t) :
    (l.set i u)[i]? = some u := by
  have hlt : i < l.length := by
    by_contra hc
    rw [List.getElem?_eq_none (by omega)] at h
    simp at h
  simp [hlt]

theorem StartHeaderProcess_exited (w : World) (d : Nat) (a : ProcAct) :
    StartHeaderProcess w d ProcPC.exited a = none := by
  cases a <;> rfl

theorem StartPolling_exited (w : World) (c : Nat) (iv : Int) (tk : Ticker) (a : PollAct) :
    StartPolling w c iv PollPC.exited tk a = none := by
  cases a <;> rfl

theorem proc_step_shape {w w' : World} {i : Nat} {a : ProcAct} {d c pp iv sp tk}
    (ht : w.tasks = [Task.headerProcess d pp, Task.polling c iv sp tk])
    (hs : stepProc w i a = some w') :
    ∃ pp', w'.tasks = [Task.headerProcess d pp', Task.polling c iv sp tk] ∧
      pp ≠ ProcPC.exited ∧ w'.produced = w.produced ∧
      ((∀ h, a ≠ ProcAct.recv h) → w'.hook = w.hook) := by
  obtain ⟨-, w1, pp', hq, rfl⟩ := stepProc_single ht hs
  obtain ⟨h1, -, h3, -, -, h6⟩ := StartHeaderProcess_spec hq
  refine ⟨pp', by simp [World.setTask, h1, ht], ?_, by simpa [World.setTask] using h3,
    fun ha => by simpa [World.setTask] using h6 ha⟩
  rintro rfl
  rw [StartHeaderProcess_exited] at hq
  simp at hq

theorem poll_step_shape {w w' : World} {i : Nat} {a : PollAct} {d c pp iv sp tk}
    (ht : w.tasks = [Task.headerProcess d pp, Task.polling c iv sp tk])
    (hs : stepPoll w i a = some w') :
    ∃ sp' tk', w'.tasks = [Task.headerProcess d pp, Task.polling c iv sp' tk'] ∧
      sp ≠ PollPC.exited ∧ w'.hook = w.hook ∧
      (a ≠ PollAct.sent → sp.held = [] ∧ w'.produced = w.produced ++ sp'.held) := by
  obtain ⟨-, w1, sp', tk', hq, rfl⟩ := stepPoll_single ht hs
  obtain ⟨h1, -, h3, -, h5, -⟩ := StartPolling_spec hq
  refine ⟨sp', tk', by simp [World.setTask, h1, ht], ?_, by simpa [World.setTask] using h3,
    fun ha => by simpa [World.setTask] using h5 ha⟩
  rintro rfl
  rw [StartPolling_exited] at hq
  simp at hq

/-- In the one-Start system a goroutine that has returned stays so: after the processing
goroutine has exited the hook list is frozen and a blocked send stays blocked; after the
polling goroutine has exited nothing more is produced and its ticker is untouched. -/
theorem Single_step_exited {w w' : World} {e : Event} {d c pp iv sp tk} (h : Single w)
    (ht : w.tasks = [Task.headerProcess d pp, Task.polling c iv sp tk])
    (he : e.launches = false) (hs : Listener.step w e = some w') :
    ∃ pp' sp' tk', w'.tasks = [Task.headerProcess d pp', Task.polling c iv sp' tk'] ∧
      (pp = ProcPC.exited → pp' = ProcPC.exited ∧ w'.hook = w.hook ∧
        ∀ x, sp = PollPC.send x → sp' = PollPC.send x) ∧
      (sp = PollPC.exited → sp' = PollPC.exited ∧ tk' = tk ∧ w'.produced = w.produced ∧
        w'.hook = w.hook) := by
  have same : ∀ {v : World}, v.tasks = w.tasks → v.hook = w.hook → v.produced = w.produced →
      ∃ pp' sp' tk', v.tasks = [Task.headerProcess d pp', Task.polling c iv sp' tk'] ∧
      (pp = ProcPC.exited → pp' = ProcPC.exited ∧ v.hook = w.hook ∧
        ∀ x, sp = PollPC.send x → sp' = PollPC.send x) ∧
      (sp = PollPC.exited → sp' = PollPC.exited ∧ tk' = tk ∧ v.produced = w.produced ∧
        v.hook = w.hook) := fun h1 h2 h3 =>
    ⟨pp, sp, tk, by rw [h1, ht], fun hp => ⟨hp, h2, fun x hx => hx⟩,
      fun hp => ⟨hp, rfl, h3, h2⟩⟩
  have procCase : ∀ {i a}, (∀ x, a ≠ ProcAct.recv x) → stepProc w i a = some w' →
      ∃ pp' sp' tk', w'.tasks = [Task.headerProcess d pp', Task.polling c iv sp' tk'] ∧
      (pp = ProcPC.exited → pp' = ProcPC.exited ∧ w'.hook = w.hook ∧
        ∀ x, sp = PollPC.send x → sp' = PollPC.send x) ∧
      (sp = PollPC.exited → sp' = PollPC.exited ∧ tk' = tk ∧ w'.produced = w.produced ∧
        w'.hook = w.hook) := by
    intro i a ha hs
    obtain ⟨pp', h1, h2, h3, h4⟩ := proc_step_shape ht hs
    exact ⟨pp', sp, tk, h1, fun hp => absurd hp h2, fun hp => ⟨hp, rfl, h3, h4 ha⟩⟩
  have pollCase : ∀ {i a}, a ≠ PollAct.sent → stepPoll w i a = some w' →
      ∃ pp' sp' tk', w'.tasks = [Task.headerProcess d pp', Task.polling c iv sp' tk'] ∧
      (pp = ProcPC.exited → pp' = ProcPC.exited ∧ w'.hook = w.hook ∧
        ∀ x, sp = PollPC.send x → sp' = PollPC.send x) ∧
      (sp = PollPC.exited → sp' = PollPC.exited ∧ tk' = tk ∧ w'.produced = w.produced ∧
        w'.hook = w.hook) := by
    intro i a ha hs
    obtain ⟨sp', tk', h1, h2, h3, h4⟩ := poll_step_shape ht hs
    refine ⟨pp, sp', tk', h1, fun hp => ⟨hp, h3, fun x hx => ?_⟩, fun hp => absurd hp h2⟩
    have := (h4 ha).1
    rw [hx] at this
    simp [PollPC.held] at this
  unfold Listener.step at hs
  split at hs
  · simp at hs
  cases e with
  | start iv => simp [Event.launches] at he
  | goSubscription c => simp [Event.launches] at he
  | setLogger l =>
    simp at hs
    subst hs
    exact same rfl rfl rfl
  | string =>
    simp at hs
    subst hs
    exact same rfl rfl rfl
  | cancel c =>
    simp at hs
    obtain ⟨-, rfl⟩ := hs
    exact same rfl rfl rfl
  | enter i =>
    simp only at hs
    split at hs
    · exact procCase (by simp) hs
    · exact pollCase (by simp) hs
    · simp at hs
  | tick i => exact pollCase (by simp) hs
  | queryReturn i r => exact pollCase (by simp) hs
  | hookReturn j => exact procCase (by simp) hs
  | done i =>
    simp only at hs
    split at hs
    · exact procCase (by simp) hs
    · exact pollCase (by simp) hs
    · obtain ⟨c0, sp0, w1, sp1, hget, -, -⟩ := stepSub_inv hs
      rw [ht] at hget
      match i, hget with
      | 0, hget => simp at hget
      | 1, hget => simp at hget
      | n + 2, hget => simp at hget
    · simp at hs
  | subErr i e =>
    obtain ⟨c0, sp0, w1, sp1, hget, -, -⟩ := stepSub_inv hs
    rw [ht] at hget
    match i, hget with
    | 0, hget => simp at hget
    | 1, hget => simp at hget
    | n + 2, hget => simp at hget
  | enqueue i =>
    simp only [h.cap, h.buf] at hs
    split at hs <;> simp at hs
  | dequeue j =>
    simp only [h.buf] at hs
    simp at hs
  | handoff i j =>
    simp only at hs
    split at hs
    · split at hs
      · split at hs
        · rename_i w2 hp
          obtain ⟨sp', tk', h1, h2, h3, -⟩ := poll_step_shape ht hp
          obtain ⟨pp', k1, k2, k3, -⟩ := proc_step_shape h1 hs
          exact ⟨pp', sp', tk', k1, fun hp => absurd hp k2, fun hp => absurd hp h2⟩
        · simp at hs
      · simp at hs
    · simp at hs

theorem Single_run_exited {evs : List Event} {w w' : World} {d c pp iv sp tk} (h : Single w)
    (ht : w.tasks = [Task.headerProcess d pp, Task.polling c iv sp tk])
    (hl : ∀ e ∈ evs, e.launches = false) (hr : Listener.run w evs = some w') :
    ∃ pp' sp' tk', w'.tasks = [Task.headerProcess d pp', Task.polling c iv sp' tk'] ∧
      (pp = ProcPC.exited → pp' = ProcPC.exited ∧ w'.hook = w.hook ∧
        ∀ x, sp = PollPC.send x → sp' = PollPC.send x) ∧
      (sp = PollPC.exited → sp' = PollPC.exited ∧ tk' = tk ∧ w'.produced = w.produced ∧
        w'.hook = w.hook) := by
  induction evs generalizing w pp sp tk with
  | nil =>
    simp [Listener.run] at hr
    subst hr
    exact ⟨pp, sp, tk, ht, fun hp => ⟨hp, rfl, fun x hx => hx⟩, fun hp => ⟨hp, rfl, rfl, rfl⟩⟩
  | cons e es ih =>
    simp only [Listener.run] at hr
    cases hs : Listener.step w e with
    | none => simp [hs] at hr
    | some w1 =>
      simp only [hs] at hr
      have he := hl e (by simp)
      obtain ⟨pp1, sp1, tk1, ht1, a1, b1⟩ := Single_step_exited h ht he hs
      obtain ⟨pp2, sp2, tk2, ht2, a2, b2⟩ :=
        ih (Single_step h he hs) ht1 (fun e he => hl e (by simp [he])) hr
      refine ⟨pp2, sp2, tk2, ht2, fun hp => ?_, fun hp => ?_⟩
      · obtain ⟨x1, x2, x3⟩ := a1 hp
        obtain ⟨y1, y2, y3⟩ := a2 x1
        exact ⟨y1, by rw [y2, x2], fun x hx => y3 x (x3 x hx)⟩
      · obtain ⟨x1, x2, x3, x4⟩ := b1 hp
        obtain ⟨y1, y2, y3, y4⟩ := b2 x1
        exact ⟨y1, by rw [y2, x2], by rw [y3, x3], by rw [y4, x4]⟩

theorem StartPolling_nextCtx {w w1 : World} {c : Nat} {iv : Int} {sp sp' : PollPC}
    {tk tk' : Ticker} {a : PollAct}
    (hq : StartPolling w c iv sp tk a = some (w1, sp', tk')) : w1.nextCtx = w.nextCtx := by
  unfold StartPolling at hq
  repeat' split at hq
  all_goals simp at hq
  all_goals obtain ⟨rfl, -, -⟩ := hq
  all_goals simp [World.info]

theorem StartHeaderProcess_nextCtx {w w1 : World} {d : Nat} {pp pp' : ProcPC}
    {a : ProcAct} (hq : StartHeaderProcess w d pp a = some (w1, pp')) :
    w1.nextCtx = w.nextCtx := by
  unfold StartHeaderProcess at hq
  repeat' split at hq
  all_goals simp at hq
  all_goals obtain ⟨rfl, -⟩ := hq
  all_goals simp [World.info]

theorem StartSubscription_nextCtx {w w1 : World} {c : Nat} {sp sp' : SubPC} {a : SubAct}
    (hq : StartSubscription w c sp a = some (w1, sp')) : w1.nextCtx = w.nextCtx := by
  unfold StartSubscription at hq
  split at hq
  · dsimp only at hq
    split at hq
    all_goals simp at hq
    all_goals obtain ⟨rfl, -⟩ := hq
    all_goals simp [World.cancel, World.error]
  · split at hq
    all_goals simp at hq
    obtain ⟨rfl, -⟩ := hq
    rfl
  · simp at hq

/-- A step of a polling goroutine keeps the handles, the allocator and the processing
goroutines. -/
theorem stepPoll_keeps {w w' : World} {i : Nat} {a : PollAct}
    (hs : stepPoll w i a = some w') :
    w'.bl = w.bl ∧ w'.nextCtx = w.nextCtx ∧
    ∀ d pc, Task.headerProcess d pc ∈ w'.tasks → ∃ pc', Task.headerProcess d pc' ∈ w.tasks := by
  obtain ⟨c, iv, sp, tk, w1, sp', tk', -, hq, rfl⟩ := stepPoll_inv hs
  obtain ⟨h1, h2, -⟩ := StartPolling_spec hq
  refine ⟨by simpa [World.setTask] using h2,
    by simpa [World.setTask] using StartPolling_nextCtx hq, fun d pc hm => ?_⟩
  simp only [World.setTask, h1] at hm
  rcases List.mem_or_eq_of_mem_set hm with hm | hm
  · exact ⟨pc, hm⟩
  · simp at hm

/-- A step of a processing goroutine keeps the handles, the allocator and the contexts of
the processing goroutines. -/
theorem stepProc_keeps {w w' : World} {i : Nat} {a : ProcAct}
    (hs : stepProc w i a = some w') :
    w'.bl = w.bl ∧ w'.nextCtx = w.nextCtx ∧
    ∀ d pc, Task.headerProcess d pc ∈ w'.tasks → ∃ pc', Task.headerProcess d pc' ∈ w.tasks := by
  obtain ⟨d0, pp, w1, pp', hget, hq, rfl⟩ := stepProc_inv hs
  obtain ⟨h1, h2, -⟩ := StartHeaderProcess_spec hq
  refine ⟨by simpa [World.setTask] using h2,
    by simpa [World.setTask] using StartHeaderProcess_nextCtx hq, fun d pc hm => ?_⟩
  simp only [World.setTask, h1] at hm
  rcases List.mem_or_eq_of_mem_set hm with hm | hm
  · exact ⟨pc, hm⟩
  · simp at hm
    obtain ⟨rfl, -⟩ := hm
    exact ⟨pp, List.getElem?_mem hget⟩

/-- A step of a subscription goroutine keeps the handles, the allocator and the processing
goroutines. -/
theorem stepSub_keeps {w w' : World} {i : Nat} {a : SubAct}
    (hs : stepSub w i a = some w') :
    w'.bl = w.bl ∧ w'.nextCtx = w.nextCtx ∧
    ∀ d pc, Task.headerProcess d pc ∈ w'.tasks → ∃ pc', Task.headerProcess d pc' ∈ w.tasks := by
  obtain ⟨c, sp, w1, sp', -, hq, rfl⟩ := stepSub_inv hs
  obtain ⟨h1, h2, -⟩ := StartSubscription_spec hq
  refine ⟨by simpa [World.setTask] using h2,
    by simpa [World.setTask] using StartSubscription_nextCtx hq, fun d pc hm => ?_⟩
  simp only [World.setTask, h1] at hm
  rcases List.mem_or_eq_of_mem_set hm with hm | hm
  · exact ⟨pc, hm⟩
  · simp at hm

/-- Every event other than a call of Start keeps both handles, the allocator and the
contexts of the processing goroutines. -/
theorem step_keeps {w w' : World} {e : Event} (hs : step w e = some w')
    (he : ∀ iv, e ≠ Event.start iv) :
    w'.bl.cancelSubscription = w.bl.cancelSubscription ∧
    w'.bl.cancelHeaderProcess = w.bl.cancelHeaderProcess ∧
    w'.nextCtx = w.nextCtx ∧
    ∀ d pc, Task.headerProcess d pc ∈ w'.tasks → ∃ pc', Task.headerProcess d pc' ∈ w.tasks := by
  have pack : ∀ {v : World}, (v.bl = w.bl ∧ v.nextCtx = w.nextCtx ∧
      ∀ d pc, Task.headerProcess d pc ∈ v.tasks → ∃ pc', Task.headerProcess d pc' ∈ w.tasks) →
      v.bl.cancelSubscription = w.bl.cancelSubscription ∧
      v.bl.cancelHeaderProcess = w.bl.cancelHeaderProcess ∧
      v.nextCtx = w.nextCtx ∧
      ∀ d pc, Task.headerProcess d pc ∈ v.tasks → ∃ pc', Task.headerProcess d pc' ∈ w.tasks :=
    fun h => ⟨by rw [h.1], by rw [h.1], h.2.1, h.2.2⟩
  unfold step at hs
  split at hs
  · simp at hs
  cases e with
  | start iv => exact absurd rfl (he iv)
  | setLogger l =>
    simp at hs
    subst hs
    exact ⟨rfl, rfl, rfl, fun d pc hm => ⟨pc, hm⟩⟩
  | string =>
    simp at hs
    subst hs
    exact ⟨rfl, rfl, rfl, fun d pc hm => ⟨pc, hm⟩⟩
  | cancel c =>
    simp at hs
    obtain ⟨-, rfl⟩ := hs
    exact ⟨rfl, rfl, rfl, fun d pc hm => ⟨pc, hm⟩⟩
  | goSubscription c =>
    simp at hs
    obtain ⟨-, rfl⟩ := hs
    refine ⟨rfl, rfl, rfl, fun d pc hm => ⟨pc, ?_⟩⟩
    simpa [World.go] using hm
  | enter i =>
    simp only at hs
    split at hs
    · exact pack (stepProc_keeps hs)
    · exact pack (stepPoll_keeps hs)
    · simp at hs
  | tick i => exact pack (stepPoll_keeps hs)
  | queryReturn i r => exact pack (stepPoll_keeps hs)
  | hookReturn j => exact pack (stepProc_keeps hs)
  | done i =>
    simp only at hs
    split at hs
    · exact pack (stepProc_keeps hs)
    · exact pack (stepPoll_keeps hs)
    · exact pack (stepSub_keeps hs)
    · simp at hs
  | subErr i e => exact pack (stepSub_keeps hs)
  | enqueue i =>
    simp only at hs
    split at hs
    · split at hs
      · obtain ⟨h1, h2, h3⟩ := stepPoll_keeps hs
        exact ⟨by rw [h1], by rw [h1], h2, h3⟩
      · simp at hs
    · simp at hs
  | dequeue j =>
    simp only at hs
    split at hs
    · obtain ⟨h1, h2, h3⟩ := stepProc_keeps hs
      exact ⟨by rw [h1], by rw [h1], h2, h3⟩
    · simp at hs
  | handoff i j =>
    simp only at hs
    split at hs
    · split at hs
      · split at hs
        · rename_i w2 hp
          obtain ⟨h1, h2, h3⟩ := stepPoll_keeps hp
          obtain ⟨k1, k2, k3⟩ := stepProc_keeps hs
          refine ⟨by rw [k1, h1], by rw [k1, h1], by rw [k2, h2], fun d pc hm => ?_⟩
          obtain ⟨pc1, hm1⟩ := k3 d pc hm
          exact h3 d pc1 hm1
        · simp at hs
      · simp at hs
    · simp at hs

theorem Handles_init {bl : BaseListener} (h1 : bl.cancelSubscription = none)
    (log : List LogEntry) : Handles (World.init bl log) := by
  refine ⟨?_, ?_, ?_⟩
  · intro d pc hm
    simp [World.init] at hm
  · intro c hc
    simp [World.init, h1] at hc
  · intro c d hc
    simp [World.init, h1] at hc

theorem Handles_step {w w' : World} {e : Event} (h : Handles w)
    (hs : Listener.step w e = some w') : Handles w' := by
  by_cases he : ∀ iv, e ≠ Event.start iv
  · obtain ⟨k1, k2, k3, k4⟩ := step_keeps hs he
    refine ⟨?_, ?_, ?_⟩
    · intro d pc hm
      obtain ⟨pc', hm'⟩ := k4 d pc hm
      rw [k3]
      exact h.procCtx d pc' hm'
    · intro c hc
      rw [k1] at hc
      refine ⟨by rw [k3]; exact (h.sub c hc).1, fun d pc hm => ?_⟩
      obtain ⟨pc', hm'⟩ := k4 d pc hm
      exact (h.sub c hc).2 d pc' hm'
    · intro c d hc hd
      rw [k1] at hc
      rw [k2] at hd
      exact h.distinct c d hc hd
  · push_neg at he
    obtain ⟨iv, rfl⟩ := he
    unfold Listener.step at hs
    split at hs
    · simp at hs
    simp at hs
    subst hs
    refine ⟨?_, ?_, ?_⟩
    · intro d pc hm
      simp [Start, World.info, World.withCancel, World.go] at hm ⊢
      rcases hm with hm | hm
      · have := h.procCtx d pc hm
        omega
      · rw [hm.1]
        omega
    · intro c hc
      simp [Start, World.info, World.withCancel, World.go] at hc ⊢
      subst hc
      refine ⟨by omega, fun d pc hm => ?_⟩
      rcases hm with hm | hm
      · have := h.procCtx d pc hm
        omega
      · rw [hm.1]
        omega
    · intro c d hc hd
      simp [Start, World.info, World.withCancel, World.go] at hc hd
      omega

theorem Handles_run {evs : List Event} {w w' : World} (h : Handles w)
    (hr : Listener.run w evs = some w') : Handles w' := by
  induction evs generalizing w with
  | nil =>
    simp [Listener.run] at hr
    subst hr
    exact h
  | cons e es ih =>
    simp only [Listener.run] at hr
    cases hs : Listener.step w e with
    | none => simp [hs] at hr
    | some w1 =>
      simp only [hs] at hr
      exact ih (Handles_step h hs) hr

/-- Once Start has been called both handles are set, and stay set. -/
theorem run_started {evs : List Event} {w w' : World} (hr : run w evs = some w')
    (h : (∃ iv, Event.start iv ∈ evs) ∨
      (w.bl.cancelSubscription.isSome ∧ w.bl.cancelHeaderProcess.isSome)) :
    w'.bl.cancelSubscription.isSome ∧ w'.bl.cancelHeaderProcess.isSome := by
  induction evs generalizing w with
  | nil =>
    simp [run] at hr
    subst hr
    rcases h with h | h
    · simp at h
    · exact h
  | cons e es ih =>
    simp only [run] at hr
    cases hs : step w e with
    | none => simp [hs] at hr
    | some w1 =>
      simp only [hs] at hr
      by_cases he : ∀ iv, e ≠ Event.start iv
      · obtain ⟨k1, k2, -⟩ := step_keeps hs he
        refine ih hr ?_
        rcases h with ⟨iv, h⟩ | h
        · simp at h
          rcases h with h | h
          · exact absurd h.symm (he iv)
          · exact Or.inl ⟨iv, h⟩
        · exact Or.inr (by rw [k1, k2]; exact h)
      · push_neg at he
        obtain ⟨iv, rfl⟩ := he
        refine ih hr (Or.inr ?_)
        unfold step at hs
        split at hs
        · simp at hs
        simp at hs
        subst hs
        simp [Start, World.info, World.withCancel, World.go]

/-! ## Properties of the listener -/

/-- C1: after a successful construction and a single Start, along every schedule of the
goroutines (no further launch), the headers passed to the ProcessHeader hook at any point
of the run are a beginning of the sequence of headers the polling goroutine produces up to
the end of the run, in the same order, and when no send is pending at the end the hook has
received exactly that sequence. -/
theorem C1_hook_follows_produced
    (factory : Except GoError ContractCaller) (cdc qc : Nat) (logger : Option Logger)
    (name : String) (impl : Nat) (bl : BaseListener) (pollInterval : Int)
    (evs1 evs2 : List Event) (w1 w2 : World)
    (hnew : (NewBaseListener factory cdc qc logger name impl).result = Except.ok bl)
    (hl : ∀ e ∈ evs1 ++ evs2, e.launches = false)
    (h1 : run (afterStart bl pollInterval) evs1 = some w1)
    (h2 : run w1 evs2 = some w2) :
    w1.hook <+: w2.produced ∧ (pending w2 = [] → w2.hook = w2.produced) := by
  have s0 := Single_afterStart (NewBaseListener_ok hnew).1 pollInterval
  have s1 : Single w1 := Single_run s0 (fun e he => hl e (by simp [he])) h1
  have s2 : Single w2 := Single_run s1 (fun e he => hl e (by simp [he])) h2
  obtain ⟨⟨l, hp⟩, -, -⟩ := run_grows h2
  refine ⟨?_, fun hpend => ?_⟩
  · rw [hp, s1.flow, List.append_assoc]
    exact List.prefix_append _ _
  · have := s2.flow
    rw [hpend, List.append_nil] at this
    exact this.symm

/-- C9: after a successful construction and a single Start, in every reachable state the
headers the polling goroutine has committed to send are those handed to the hook plus the
pending sends, there is at most one pending send, and the unbuffered channel holds
nothing. -/
theorem C9_at_most_one_ahead
    (factory : Except GoError ContractCaller) (cdc qc : Nat) (logger : Option Logger)
    (name : String) (impl : Nat) (bl : BaseListener) (pollInterval : Int)
    (evs : List Event) (w : World)
    (hnew : (NewBaseListener factory cdc qc logger name impl).result = Except.ok bl)
    (hl : ∀ e ∈ evs, e.launches = false)
    (hr : run (afterStart bl pollInterval) evs = some w) :
    w.produced.length = w.hook.length + (pending w).length ∧
    (pending w).length ≤ 1 ∧
    w.produced.length ≤ w.hook.length + 1 ∧
    w.bl.HeaderChannel.cap = 0 ∧ w.bl.HeaderChannel.buf = [] := by
  have s0 := Single_afterStart (NewBaseListener_ok hnew).1 pollInterval
  have s : Single w := Single_run s0 hl hr
  have hlen : (pending w).length ≤ 1 := by
    obtain ⟨d, pp, c, iv, sp, tk, ht⟩ := s.shape
    simp only [pending, ht, heldBy]
    cases sp <;> simp [PollPC.held]
  have hf : w.produced.length = w.hook.length + (pending w).length := by
    rw [s.flow, List.length_append]
  exact ⟨hf, hlen, by omega, s.cap, s.buf⟩

/-- C1, at a run that polls and delivers headers 100 and 101. -/
theorem C1_hook_follows_produced_witness :
    (NewBaseListener (Except.ok ⟨7⟩) 0 0 (some (Logger.sink 0)) "rootchain" 1).result
        = Except.ok exBl ∧
    run (afterStart exBl 5) (exEnter ++ exDeliver 100)
      = some { exRunning with
          tasks := [Task.headerProcess 1 ProcPC.inHook,
            Task.polling 0 5 PollPC.select Ticker.running]
          hook := [⟨100⟩], produced := [⟨100⟩] } ∧
    ([⟨100⟩] : List Header) <+: [⟨100⟩, ⟨101⟩] ∧
    ((pending { exRunning with hook := [⟨100⟩, ⟨101⟩], produced := [⟨100⟩, ⟨101⟩] } = []) →
      ([⟨100⟩, ⟨101⟩] : List Header) = [⟨100⟩, ⟨101⟩]) :=
  ⟨rfl, rfl,
    C1_hook_follows_produced (Except.ok ⟨7⟩) 0 0 (some (Logger.sink 0)) "rootchain" 1 exBl 5
      (exEnter ++ exDeliver 100) (Event.hookReturn 0 :: exDeliver 101 ++ [Event.hookReturn 0])
      { exRunning with
          tasks := [Task.headerProcess 1 ProcPC.inHook,
            Task.polling 0 5 PollPC.select Ticker.running]
          hook := [⟨100⟩], produced := [⟨100⟩] }
      { exRunning with hook := [⟨100⟩, ⟨101⟩], produced := [⟨100⟩, ⟨101⟩] }
      rfl (by decide) rfl rfl⟩

/-- C9, at the state where header 101 is polled and its send is pending while the hook
still works on header 100. -/
theorem C9_at_most_one_ahead_witness :
    run (afterStart exBl 5)
        (exEnter ++ exDeliver 100 ++ [Event.tick 1, Event.queryReturn 1 (exHeader 101)])
      = some { exRunning with
          tasks := [Task.headerProcess 1 ProcPC.inHook,
            Task.polling 0 5 (PollPC.send ⟨101⟩) Ticker.running]
          hook := [⟨100⟩], produced := [⟨100⟩, ⟨101⟩] } ∧
    ([⟨100⟩, ⟨101⟩] : List Header).length = ([⟨100⟩] : List Header).length + 1 :=
  ⟨rfl,
    (C9_at_most_one_ahead (Except.ok ⟨7⟩) 0 0 (some (Logger.sink 0)) "rootchain" 1 exBl 5
      (exEnter ++ exDeliver 100 ++ [Event.tick 1, Event.queryReturn 1 (exHeader 101)])
      { exRunning with
          tasks := [Task.headerProcess 1 ProcPC.inHook,
            Task.polling 0 5 (PollPC.send ⟨101⟩) Ticker.running]
          hook := [⟨100⟩], produced := [⟨100⟩, ⟨101⟩] }
      rfl (by decide) rfl).1⟩

/-- C3: for every polling tick, the goroutine reaches its send statement, with the header
of the query result, exactly when the error is nil and the header is non-nil; otherwise
nothing is sent, the query is not repeated and the goroutine is back at its select with
the world unchanged. -/
theorem C3_poll_sends_iff_good (w : World) (i : Nat) (c : Nat) (iv : Int)
    (r : QueryResult) (hp : w.panicked = none)
    (ht : w.tasks[i]? = some (Task.polling c iv PollPC.select Ticker.running)) :
    ∃ w', run w [Event.tick i, Event.queryReturn i r] = some w' ∧
      ((∃ h, sending w' i = some h) ↔ (r.err = none ∧ r.header ≠ none)) ∧
      (∀ h, sending w' i = some h → r.header = some h ∧ w'.produced = w.produced ++ [h]) ∧
      ((r.err ≠ none ∨ r.header = none) →
        w' = w ∧ w'.tasks[i]? = some (Task.polling c iv PollPC.select Ticker.running)) := by
  have hq : (w.setTask i (Task.polling c iv PollPC.query Ticker.running)).tasks[i]?
      = some (Task.polling c iv PollPC.query Ticker.running) := by
    simpa [World.setTask] using getElem?_set_here ht
  have hpq : (w.setTask i (Task.polling c iv PollPC.query Ticker.running)).panicked = none := hp
  have e1 : step w (Event.tick i)
      = some (w.setTask i (Task.polling c iv PollPC.query Ticker.running)) := by
    simp [step, hp, stepPoll, ht, StartPolling]
  have back : (w.setTask i (Task.polling c iv PollPC.query Ticker.running)).setTask i
      (Task.polling c iv PollPC.select Ticker.running) = w := by
    simp [World.setTask, List.set_set, set_same ht]
  obtain ⟨hd, er⟩ := r
  cases er with
  | some e =>
    refine ⟨w, ?_, ?_, ?_, ?_⟩
    · have e2 : step (w.setTask i (Task.polling c iv PollPC.query Ticker.running))
          (Event.queryReturn i ⟨hd, some e⟩) = some w := by
        simp only [step, hpq, stepPoll, hq, StartPolling, back]
        simp
      simp [run, e1, e2]
    · simp [sending, ht]
    · simp [sending, ht]
    · intro _
      exact ⟨rfl, ht⟩
  | none =>
    cases hd with
    | none =>
      refine ⟨w, ?_, ?_, ?_, ?_⟩
      · have e2 : step (w.setTask i (Task.polling c iv PollPC.query Ticker.running))
            (Event.queryReturn i ⟨none, none⟩) = some w := by
          simp only [step, hpq, stepPoll, hq, StartPolling, back]
          simp
        simp [run, e1, e2]
      · simp [sending, ht]
      · simp [sending, ht]
      · intro _
        exact ⟨rfl, ht⟩
    | some h =>
      refine ⟨({ w with produced := w.produced ++ [h] } : World).setTask i
        (Task.polling c iv (PollPC.send h) Ticker.running), ?_, ?_, ?_, ?_⟩
      · have e2 : step (w.setTask i (Task.polling c iv PollPC.query Ticker.running))
            (Event.queryReturn i ⟨some h, none⟩)
            = some (({ w with produced := w.produced ++ [h] } : World).setTask i
                (Task.polling c iv (PollPC.send h) Ticker.running)) := by
          simp only [step, hpq, stepPoll, hq, StartPolling]
          simp [World.setTask, List.set_set, hp]
        simp [run, e1, e2]
      · simp [sending, World.setTask, getElem?_set_here ht]
      · simp [sending, World.setTask, getElem?_set_here ht]
      · simp

/-- C3, at the running example with a good header and with a failed query. -/
theorem C3_poll_sends_iff_good_witness :
    exRunning.panicked = none ∧
    exRunning.tasks[1]? = some (Task.polling 0 5 PollPC.select Ticker.running) ∧
    (∃ w', run exRunning [Event.tick 1, Event.queryReturn 1 ⟨none, some ⟨"timeout"⟩⟩]
        = some w' ∧ w' = exRunning) :=
  ⟨rfl, rfl,
    (C3_poll_sends_iff_good exRunning 1 0 5 ⟨none, some ⟨"timeout"⟩⟩ rfl rfl).elim
      fun w' h => ⟨w', h.1, (h.2.2.2 (Or.inl (by simp))).1⟩⟩

/-- C4: whatever the state of the listener, Start returns a nil error, hence none of the
declared errors, and has stored two cancellation handles of contexts that did not exist
before the call and differ from each other. -/
theorem C4_start_returns_nil (w : World) (pollInterval : Int) :
    (Start w pollInterval).1 = none ∧
    (Start w pollInterval).1 ≠ some ErrAlreadyStarted ∧
    (Start w pollInterval).1 ≠ some ErrAlreadyStopped ∧
    (Start w pollInterval).1 ≠ some ErrNotStarted ∧
    (Start w pollInterval).2.panicked = w.panicked ∧
    ∃ c d, (Start w pollInterval).2.bl.cancelSubscription = some c ∧
      (Start w pollInterval).2.bl.cancelHeaderProcess = some d ∧
      c ≠ d ∧ w.nextCtx ≤ c ∧ w.nextCtx ≤ d ∧
      c < (Start w pollInterval).2.nextCtx ∧ d < (Start w pollInterval).2.nextCtx ∧
      (Start w pollInterval).2.cancelled = w.cancelled := by
  refine ⟨rfl, by simp [Start], by simp [Start], by simp [Start], rfl, w.nextCtx,
    w.nextCtx + 1, rfl, rfl, by simp, le_refl _, by simp, ?_, ?_, rfl⟩
  · exact Nat.lt_succ_of_lt (Nat.lt_succ_self w.nextCtx)
  · simp [Start, World.info, World.withCancel, World.go]

/-- C5: NewBaseListener panics exactly when the factory returns an error; then no listener
is returned and no goroutine has been launched; when the factory succeeds the listener
returned has started = 0, stopped = 0, an empty unbuffered open HeaderChannel, both
cancellation handles nil and the name given. -/
theorem C5_construction (factory : Except GoError ContractCaller) (cdc qc : Nat)
    (logger : Option Logger) (name : String) (impl : Nat) :
    ((∃ p, (NewBaseListener factory cdc qc logger name impl).result = Except.error p) ↔
      ∃ e, factory = Except.error e) ∧
    ((∃ e, factory = Except.error e) →
      (∀ bl, (NewBaseListener factory cdc qc logger name impl).result ≠ Except.ok bl) ∧
      (NewBaseListener factory cdc qc logger name impl).spawned = []) ∧
    (∀ cc, factory = Except.ok cc →
      ∃ bl, (NewBaseListener factory cdc qc logger name impl).result = Except.ok bl ∧
        bl.started = 0 ∧ bl.stopped = 0 ∧
        bl.HeaderChannel.cap = 0 ∧ bl.HeaderChannel.buf = [] ∧
        bl.HeaderChannel.closed = false ∧
        bl.cancelSubscription = none ∧ bl.cancelHeaderProcess = none ∧
        bl.name = name ∧ bl.contractConnector = cc ∧
        (NewBaseListener factory cdc qc logger name impl).spawned = []) := by
  cases factory with
  | error e => cases logger <;> simp [NewBaseListener]
  | ok cc => simp [NewBaseListener, Chan.unbuffered]

/-- C2, code at the failing input: after construction and two calls of Start, with all
four goroutines in their loops, two polling goroutines are active on the same listener. -/
theorem C2_second_start_second_producer :
    (run (World.init exBl [])
        [Event.start 5, Event.start 5, Event.enter 0, Event.enter 1, Event.enter 2,
          Event.enter 3]).map (fun w => (activeProducers w, w.tasks))
      = some (2, [Task.headerProcess 1 ProcPC.select,
          Task.polling 0 5 PollPC.select Ticker.running,
          Task.headerProcess 3 ProcPC.select,
          Task.polling 2 5 PollPC.select Ticker.running]) := by
  rfl

/-- C7 as stated fails: the processing context (1) has been cancelled while the polling
goroutine is blocked sending header 100 and the processing goroutine is at its select;
the receive case is still enabled and the hook is invoked with header 100. -/
theorem C7_receive_after_cancel :
    run (afterStart exBl 5)
        (exEnter ++ [Event.tick 1, Event.queryReturn 1 (exHeader 100), Event.cancel 1])
      = some (exBlockedSend 1) ∧
    (exBlockedSend 1).tasks[0]? = some (Task.headerProcess 1 ProcPC.select) ∧
    1 ∈ (exBlockedSend 1).cancelled ∧
    (exBlockedSend 1).hook = [] ∧
    (step (exBlockedSend 1) (Event.handoff 1 0)).map World.hook = some [⟨100⟩] := by
  refine ⟨rfl, rfl, by decide, rfl, rfl⟩

/-- C7 amended: in the one-Start system, a processing goroutine at its select whose context
is cancelled can take the Done case, which only moves it to its return; and once it has
returned, whatever happens next the hook is never invoked again and a header held by a
blocked send stays with the polling goroutine, unconsumed. -/
theorem C7_exited_processor_never_receives
    (factory : Except GoError ContractCaller) (cdc qc : Nat) (logger : Option Logger)
    (name : String) (impl : Nat) (bl : BaseListener) (pollInterval : Int)
    (evs : List Event) (w : World) (d c : Nat) (pp : ProcPC) (iv : Int) (sp : PollPC)
    (tk : Ticker)
    (hnew : (NewBaseListener factory cdc qc logger name impl).result = Except.ok bl)
    (hl : ∀ e ∈ evs, e.launches = false)
    (hr : run (afterStart bl pollInterval) evs = some w)
    (ht : w.tasks = [Task.headerProcess d pp, Task.polling c iv sp tk]) :
    (pp = ProcPC.select → d ∈ w.cancelled → w.panicked = none →
      step w (Event.done 0) = some (w.setTask 0 (Task.headerProcess d ProcPC.exited))) ∧
    (pp = ProcPC.exited → ∀ evs' w', (∀ e ∈ evs', e.launches = false) →
      run w evs' = some w' →
      w'.hook = w.hook ∧
      ∃ sp' tk', w'.tasks = [Task.headerProcess d ProcPC.exited, Task.polling c iv sp' tk'] ∧
        ∀ x, sp = PollPC.send x → sp' = PollPC.send x) := by
  have s0 := Single_afterStart (NewBaseListener_ok hnew).1 pollInterval
  have s : Single w := Single_run s0 hl hr
  refine ⟨fun hp hc hpan => ?_, fun hp evs' w' hl' hr' => ?_⟩
  · subst hp
    simp [step, hpan, ht, stepProc, StartHeaderProcess, hc]
  · obtain ⟨pp', sp', tk', ht', a, -⟩ := Single_run_exited s ht hl' hr'
    obtain ⟨a1, a2, a3⟩ := a hp
    subst a1
    exact ⟨a2, sp', tk', ht', a3⟩

/-- C7 amended, at the example where the processing goroutine has returned after the
cancellation while header 100 is held by the blocked send. -/
theorem C7_exited_processor_never_receives_witness :
    run (afterStart exBl 5)
        (exEnter ++ [Event.tick 1, Event.queryReturn 1 (exHeader 100), Event.cancel 1,
          Event.done 0])
      = some ((exBlockedSend 1).setTask 0 (Task.headerProcess 1 ProcPC.exited)) ∧
    (run ((exBlockedSend 1).setTask 0 (Task.headerProcess 1 ProcPC.exited))
        [Event.cancel 0, Event.setLogger Logger.nop]).map World.hook = some [] :=
  ⟨rfl, by
    have h := (C7_exited_processor_never_receives (Except.ok ⟨7⟩) 0 0 (some (Logger.sink 0))
      "rootchain" 1 exBl 5
      (exEnter ++ [Event.tick 1, Event.queryReturn 1 (exHeader 100), Event.cancel 1,
          Event.done 0])
      ((exBlockedSend 1).setTask 0 (Task.headerProcess 1 ProcPC.exited))
      1 0 ProcPC.exited 5 (PollPC.send ⟨100⟩) Ticker.running rfl (by decide) rfl rfl).2 rfl
      [Event.cancel 0, Event.setLogger Logger.nop]
    cases hr : run ((exBlockedSend 1).setTask 0 (Task.headerProcess 1 ProcPC.exited))
        [Event.cancel 0, Event.setLogger Logger.nop] with
    | none => exact absurd hr (by decide)
    | some w' => exact congrArg some (h w' (by decide) hr).1⟩

/-- C8 as stated fails: the acquisition context (0) has been cancelled while the polling
goroutine is blocked sending header 100; the send still completes, the hook receives
header 100, and the polling goroutine is back at its select with its ticker running. -/
theorem C8_send_after_cancel :
    run (afterStart exBl 5)
        (exEnter ++ [Event.tick 1, Event.queryReturn 1 (exHeader 100), Event.cancel 0])
      = some (exBlockedSend 0) ∧
    (exBlockedSend 0).tasks[1]?
      = some (Task.polling 0 5 (PollPC.send ⟨100⟩) Ticker.running) ∧
    0 ∈ (exBlockedSend 0).cancelled ∧
    (exBlockedSend 0).hook = [] ∧
    (step (exBlockedSend 0) (Event.handoff 1 0)).map (fun w => (w.hook, w.tasks[1]?))
      = some ([⟨100⟩], some (Task.polling 0 5 PollPC.select Ticker.running)) := by
  refine ⟨rfl, rfl, by decide, rfl, rfl⟩

/-- C8 amended: in the one-Start system, a polling goroutine at its select whose context is
cancelled can take the Done case, which stops its ticker and moves it to its return and
changes nothing else; once it has returned, whatever happens next it produces no further
header, the hook receives nothing more and its ticker stays as it is; in every state the
channel is open, of capacity zero and empty; and a polling goroutine blocked in its send
cannot take the Done case, cancelled or not, while its send still hands the header to a
processing goroutine waiting at its select. -/
theorem C8_exited_poller_never_sends
    (factory : Except GoError ContractCaller) (cdc qc : Nat) (logger : Option Logger)
    (name : String) (impl : Nat) (bl : BaseListener) (pollInterval : Int)
    (evs : List Event) (w : World) (d c : Nat) (pp : ProcPC) (iv : Int) (sp : PollPC)
    (tk : Ticker)
    (hnew : (NewBaseListener factory cdc qc logger name impl).result = Except.ok bl)
    (hl : ∀ e ∈ evs, e.launches = false)
    (hr : run (afterStart bl pollInterval) evs = some w)
    (ht : w.tasks = [Task.headerProcess d pp, Task.polling c iv sp tk]) :
    (sp = PollPC.select → c ∈ w.cancelled → w.panicked = none →
      step w (Event.done 1)
        = some (w.setTask 1 (Task.polling c iv PollPC.exited Ticker.stopped))) ∧
    (sp = PollPC.exited → ∀ evs' w', (∀ e ∈ evs', e.launches = false) →
      run w evs' = some w' →
      w'.produced = w.produced ∧ w'.hook = w.hook ∧
      ∃ pp', w'.tasks = [Task.headerProcess d pp', Task.polling c iv PollPC.exited tk]) ∧
    (w.bl.HeaderChannel.closed = false ∧ w.bl.HeaderChannel.cap = 0 ∧
      w.bl.HeaderChannel.buf = []) ∧
    (∀ x, sp = PollPC.send x →
      step w (Event.done 1) = none ∧
      (pp = ProcPC.select → w.panicked = none →
        ∃ w', step w (Event.handoff 1 0) = some w' ∧
          w'.hook = w.hook ++ [x] ∧ w'.cancelled = w.cancelled ∧
          w'.tasks = [Task.headerProcess d ProcPC.inHook,
            Task.polling c iv PollPC.select tk])) := by
  have s0 := Single_afterStart (NewBaseListener_ok hnew).1 pollInterval
  have s : Single w := Single_run s0 hl hr
  refine ⟨fun hp hc hpan => ?_, fun hp evs' w' hl' hr' => ?_, ⟨s.closed, s.cap, s.buf⟩,
    fun x hx => ⟨?_, fun hpp hpan => ?_⟩⟩
  · subst hp
    simp [step, hpan, ht, stepPoll, StartPolling, hc]
  · obtain ⟨pp', sp', tk', ht', -, b⟩ := Single_run_exited s ht hl' hr'
    obtain ⟨b1, b2, b3, b4⟩ := b hp
    subst b1 b2
    exact ⟨b3, b4, pp', ht'⟩
  · subst hx
    simp [step, ht, stepPoll, StartPolling]
  · subst hx hpp
    refine ⟨({ w with hook := w.hook ++ [x] } : World).setTask 1
        (Task.polling c iv PollPC.select tk) |>.setTask 0
        (Task.headerProcess d ProcPC.inHook), ?_, ?_, ?_, ?_⟩
    · simp [step, hpan, ht, sending, s.buf, stepPoll, StartPolling, stepProc,
        StartHeaderProcess, World.setTask]
    · simp [World.setTask]
    · simp [World.setTask]
    · simp [World.setTask, ht]

/-- C8 amended, at the running example after the acquisition context has been cancelled
with the polling goroutine at its select. -/
theorem C8_exited_poller_never_sends_witness :
    run (afterStart exBl 5) (exEnter ++ [Event.cancel 0])
      = some { exRunning with cancelled := [0], cancelCalls := [0] } ∧
    step { exRunning with cancelled := [0], cancelCalls := [0] } (Event.done 1)
      = some { exRunning with
          cancelled := [0], cancelCalls := [0]
          tasks := [Task.headerProcess 1 ProcPC.select,
            Task.polling 0 5 PollPC.exited Ticker.stopped] } :=
  ⟨rfl,
    (C8_exited_poller_never_sends (Except.ok ⟨7⟩) 0 0 (some (Logger.sink 0)) "rootchain" 1
      exBl 5 (exEnter ++ [Event.cancel 0])
      { exRunning with cancelled := [0], cancelCalls := [0] }
      1 0 ProcPC.select 5 PollPC.select Ticker.running rfl (by decide) rfl rfl).1
      rfl (by decide) rfl⟩

/-- C10, code at the failing input: a polling tick whose query fails with an error, and
one whose query returns a nil header without error, leave the log of a recording logger
exactly as it was. -/
theorem C10_failed_poll_not_logged :
    (run exRunning [Event.tick 1, Event.queryReturn 1 ⟨none, some ⟨"connection refused"⟩⟩]).map
        World.log = some exRunning.log ∧
    (run exRunning [Event.tick 1, Event.queryReturn 1 ⟨none, none⟩]).map
        World.log = some exRunning.log := by
  exact ⟨rfl, rfl⟩

/-- C6: in every live world reached from a successful construction by a schedule that
contains a call of Start, when a subscription goroutine at its select receives an error it
logs it, invokes the cancel function stored in cancelSubscription exactly once and
returns; that function is not the one stored in cancelHeaderProcess, and the context of
every processing goroutine is cancelled afterwards exactly if it was before. -/
theorem C6_subscription_error_cancels_acquisition
    (factory : Except GoError ContractCaller) (cdc qc : Nat) (logger : Option Logger)
    (name : String) (impl : Nat) (bl : BaseListener) (evs : List Event) (w : World)
    (i : Nat) (ctx : Nat) (err : Option GoError)
    (hnew : (NewBaseListener factory cdc qc logger name impl).result = Except.ok bl)
    (hr : run (World.init bl []) evs = some w)
    (hstart : ∃ iv, Event.start iv ∈ evs)
    (hlive : w.panicked = none)
    (ht : w.tasks[i]? = some (Task.subscription ctx SubPC.select)) :
    ∃ (c d : Nat) (w' : World),
      w.bl.cancelSubscription = some c ∧ w.bl.cancelHeaderProcess = some d ∧
      c ≠ d ∧ step w (Event.subErr i err) = some w' ∧
      w'.cancelCalls = w.cancelCalls ++ [c] ∧
      w'.tasks[i]? = some (Task.subscription ctx SubPC.exited) ∧
      w'.log = w.bl.Logger.emit Level.error "Error while subscribing new blocks" err w.log ∧
      (d ∈ w'.cancelled ↔ d ∈ w.cancelled) ∧
      ∀ (j dj : Nat) (pc : ProcPC), w'.tasks[j]? = some (Task.headerProcess dj pc) →
        (dj ∈ w'.cancelled ↔ dj ∈ w.cancelled) := by
  have hH : Handles w := Handles_run (Handles_init (NewBaseListener_ok hnew).2.2.2.1 []) hr
  obtain ⟨hs1, hs2⟩ := run_started hr (Or.inl hstart)
  obtain ⟨c, hc⟩ := Option.isSome_iff_exists.mp hs1
  obtain ⟨d, hd⟩ := Option.isSome_iff_exists.mp hs2
  have hcd : c ≠ d := hH.distinct c d hc hd
  have hmem : ∀ x, x ≠ c → (x ∈ (if c ∈ w.cancelled then w.cancelled else c :: w.cancelled)
      ↔ x ∈ w.cancelled) := by
    intro x hx
    split
    · rfl
    · simp [hx]
  refine ⟨c, d,
    ((w.error "Error while subscribing new blocks" err).cancel c).setTask i
      (Task.subscription ctx SubPC.exited),
    hc, hd, hcd, ?_, ?_, ?_, ?_, ?_, ?_⟩
  · have hc' : (w.error "Error while subscribing new blocks" err).bl.cancelSubscription
        = some c := hc
    simp only [step, hlive, stepSub, ht, StartSubscription, hc']
    simp
  · simp [World.setTask, World.cancel, World.error]
  · simpa [World.setTask, World.cancel, World.error] using getElem?_set_here ht
  · simp [World.setTask, World.cancel, World.error]
  · simpa [World.setTask, World.cancel, World.error] using hmem d (Ne.symm hcd)
  · intro j dj pc hj
    have hmemj : Task.headerProcess dj pc ∈
        (w.tasks.set i (Task.subscription ctx SubPC.exited)) := by
      apply List.getElem?_mem (n := j)
      simpa [World.setTask, World.cancel, World.error] using hj
    have hin : Task.headerProcess dj pc ∈ w.tasks := by
      rcases List.mem_or_eq_of_mem_set hmemj with h | h
      · exact h
      · simp at h
    simpa [World.setTask, World.cancel, World.error] using
      hmem dj ((hH.sub c hc).2 dj pc hin)

/-- C6, at the example with one subscription goroutine after a Start. -/
theorem C6_subscription_error_cancels_acquisition_witness :
    run (World.init exBl []) [Event.start 5, Event.goSubscription 0] = some exSubscribed ∧
    exSubscribed.tasks[2]? = some (Task.subscription 0 SubPC.select) ∧
    ∃ (c d : Nat) (w' : World), exSubscribed.bl.cancelSubscription = some c ∧
      exSubscribed.bl.cancelHeaderProcess = some d ∧ c ≠ d ∧
      step exSubscribed (Event.subErr 2 (some ⟨"subscription closed"⟩)) = some w' ∧
      w'.cancelCalls = exSubscribed.cancelCalls ++ [c] :=
  ⟨rfl, rfl,
    (C6_subscription_error_cancels_acquisition (Except.ok ⟨7⟩) 0 0 (some (Logger.sink 0))
      "rootchain" 1 exBl [Event.start 5, Event.goSubscription 0] exSubscribed 2 0
      (some ⟨"subscription closed"⟩) rfl rfl ⟨5, by simp⟩ rfl rfl).elim
      fun c h => h.elim fun d h => h.elim fun w' h =>
        ⟨c, d, w', h.1, h.2.1, h.2.2.1, h.2.2.2.1, h.2.2.2.2.1⟩⟩

end Listener

namespace StakingRest

/-- C11, code at the failing input: when the query succeeds (nil error) with empty bytes,
both handlers write the not-found response and then panic on `err.Error()` with a nil
`err`; for both, this is the one and only case in which they panic, while the sibling
handler `currentProposerHandlerFn` returns normally on every query result. -/
theorem C11_not_found_branch_panics (q : QueryData) (height : Int)
    (unmarshal : Option Listener.GoError) (marshal : Except Listener.GoError (List Nat)) :
    initialRewardRootHandlerFn ⟨[], height, none⟩ marshal
      = ⟨[Response.notFound "RewardRootHash not found"],
          [⟨"debug", "initial rewardRootHash querier response", LogArg.bytes []⟩],
          some Listener.Panic.nilDeref⟩ ∧
    proposerBonusPercentHandlerFn ⟨[], height, none⟩ unmarshal marshal
      = ⟨[Response.notFound "Proposer bonus percentage not found"], [],
          some Listener.Panic.nilDeref⟩ ∧
    ((initialRewardRootHandlerFn q marshal).panic ≠ none ↔ (q.err = none ∧ q.res = [])) ∧
    ((proposerBonusPercentHandlerFn q unmarshal marshal).panic ≠ none ↔
      (q.err = none ∧ q.res = [])) ∧
    (currentProposerHandlerFn q).panic = none := by
  refine ⟨rfl, rfl, ?_, ?_, ?_⟩
  · obtain ⟨res, h, err⟩ := q
    cases err with
    | some e => simp [initialRewardRootHandlerFn]
    | none =>
      cases res with
      | nil => simp [initialRewardRootHandlerFn, ReturnNotFoundIfNoContent, Error]
      | cons b bs =>
        cases marshal <;> simp [initialRewardRootHandlerFn, ReturnNotFoundIfNoContent]
  · obtain ⟨res, h, err⟩ := q
    cases err with
    | some e => simp [proposerBonusPercentHandlerFn]
    | none =>
      cases res with
      | nil => simp [proposerBonusPercentHandlerFn, ReturnNotFoundIfNoContent, Error]
      | cons b bs =>
        cases unmarshal <;> cases marshal <;>
          simp [proposerBonusPercentHandlerFn, ReturnNotFoundIfNoContent]
  · obtain ⟨res, h, err⟩ := q
    cases err with
    | some e => simp [currentProposerHandlerFn]
    | none =>
      cases res <;> simp [currentProposerHandlerFn, ReturnNotFoundIfNoContent]

end StakingRest
